import Mathlib

/-!
Verification of the xmap pytree batching layer (src/xmap.py).

The development shallowly embeds the Python source: Python runtime values
(jax arrays, lists, dicts, tuples, strings, numbers, type objects, None,
Ellipsis) become the inductive type `Py`; each pytree function of the source
becomes a Lean function of the same name over `Py`; the callable produced by
`recursive_xmap` becomes the symbolic closure tree `XFun`, whose runtime
behaviour is given by the interpreter `XFun.sem` (with the external
vectorizing primitive `vmap` modelled from the specification's contract).
Assertion failures and Python-level errors are modelled with `Except`.
-/

/-- Element dtypes of jax arrays that the model distinguishes
(two integer widths, two float widths, booleans). -/
inductive Dty where
  | i32 | i64 | f32 | f64 | boolD
deriving DecidableEq

/-- A jax array, modelled as a nested rectangular list of typed cells.
The integer payload is only meaningful for integer dtypes; for the other
dtypes it is an opaque identifier. -/
inductive Arr where
  | cell (d : Dty) (v : Int)
  | dim (xs : List Arr)

mutual

def decEqArr : (a b : Arr) → Decidable (a = b)
  | .cell d1 v1, .cell d2 v2 =>
    match decEq d1 d2, decEq v1 v2 with
    | isTrue h1, isTrue h2 => isTrue (by rw [h1, h2])
    | isFalse h1, _ => isFalse (fun he => by cases he; exact h1 rfl)
    | _, isFalse h2 => isFalse (fun he => by cases he; exact h2 rfl)
  | .dim xs, .dim ys =>
    match decEqArrList xs ys with
    | isTrue h => isTrue (by rw [h])
    | isFalse h => isFalse (fun he => by cases he; exact h rfl)
  | .cell _ _, .dim _ => isFalse (fun he => by cases he)
  | .dim _, .cell _ _ => isFalse (fun he => by cases he)

def decEqArrList : (a b : List Arr) → Decidable (a = b)
  | [], [] => isTrue rfl
  | [], _ :: _ => isFalse (fun he => by cases he)
  | _ :: _, [] => isFalse (fun he => by cases he)
  | x :: xs, y :: ys =>
    match decEqArr x y, decEqArrList xs ys with
    | isTrue h1, isTrue h2 => isTrue (by rw [h1, h2])
    | isFalse h1, _ => isFalse (fun he => by cases he; exact h1 rfl)
    | _, isFalse h2 => isFalse (fun he => by cases he; exact h2 rfl)

end

instance : DecidableEq Arr := decEqArr

/-- Python classes that can appear as exact-type descriptors in an axis
specification, or as the `type(data)` of a modelled runtime value:
jax dtype classes, the Python builtins, and structural classes. -/
inductive PyType where
  | dcls (d : Dty)
  | pyInt | pyFloat | pyBool | pyStr
  | jaxArray | noneType | ellipsisType | typeType
  | listCls | dictCls | tupleCls
  | exact (name : String)
deriving DecidableEq

/-- A Python value as used by xmap: either a pytree node (jax array, list,
ordered dict, tuple) or a scalar (string, type object, int, float, bool,
None, Ellipsis).  Axis specification trees and runtime value trees are both
`Py` values, exactly as in the dynamically typed source. -/
inductive Py where
  | arr (a : Arr)
  | str (s : String)
  | pytype (t : PyType)
  | intLit (n : Int)
  | floatLit (id : Int)
  | boolLit (b : Bool)
  | noneV
  | ellipsis
  | list (xs : List Py)
  | dict (entries : List (String × Py))
  | tuple (xs : List Py)

mutual

def decEqPy : (a b : Py) → Decidable (a = b) := fun a b => by
  cases a <;> cases b <;> try exact isFalse (fun he => Py.noConfusion he)
  case arr.arr x y =>
    exact match decEq x y with
    | isTrue h => isTrue (by rw [h])
    | isFalse h => isFalse (fun he => by cases he; exact h rfl)
  case str.str x y =>
    exact match decEq x y with
    | isTrue h => isTrue (by rw [h])
    | isFalse h => isFalse (fun he => by cases he; exact h rfl)
  case pytype.pytype x y =>
    exact match decEq x y with
    | isTrue h => isTrue (by rw [h])
    | isFalse h => isFalse (fun he => by cases he; exact h rfl)
  case intLit.intLit x y =>
    exact match decEq x y with
    | isTrue h => isTrue (by rw [h])
    | isFalse h => isFalse (fun he => by cases he; exact h rfl)
  case floatLit.floatLit x y =>
    exact match decEq x y with
    | isTrue h => isTrue (by rw [h])
    | isFalse h => isFalse (fun he => by cases he; exact h rfl)
  case boolLit.boolLit x y =>
    exact match decEq x y with
    | isTrue h => isTrue (by rw [h])
    | isFalse h => isFalse (fun he => by cases he; exact h rfl)
  case noneV.noneV => exact isTrue rfl
  case ellipsis.ellipsis => exact isTrue rfl
  case list.list xs ys =>
    exact match decEqPyList xs ys with
    | isTrue h => isTrue (by rw [h])
    | isFalse h => isFalse (fun he => by cases he; exact h rfl)
  case tuple.tuple xs ys =>
    exact match decEqPyList xs ys with
    | isTrue h => isTrue (by rw [h])
    | isFalse h => isFalse (fun he => by cases he; exact h rfl)
  case dict.dict xs ys =>
    exact match decEqPyDict xs ys with
    | isTrue h => isTrue (by rw [h])
    | isFalse h => isFalse (fun he => by cases he; exact h rfl)

def decEqPyList : (a b : List Py) → Decidable (a = b)
  | [], [] => isTrue rfl
  | [], _ :: _ => isFalse (fun he => by cases he)
  | _ :: _, [] => isFalse (fun he => by cases he)
  | x :: xs, y :: ys =>
    match decEqPy x y, decEqPyList xs ys with
    | isTrue h1, isTrue h2 => isTrue (by rw [h1, h2])
    | isFalse h1, _ => isFalse (fun he => by cases he; exact h1 rfl)
    | _, isFalse h2 => isFalse (fun he => by cases he; exact h2 rfl)

def decEqPyDict : (a b : List (String × Py)) → Decidable (a = b)
  | [], [] => isTrue rfl
  | [], _ :: _ => isFalse (fun he => by cases he)
  | _ :: _, [] => isFalse (fun he => by cases he)
  | (k1, v1) :: xs, (k2, v2) :: ys =>
    match decEq k1 k2, decEqPy v1 v2, decEqPyDict xs ys with
    | isTrue h0, isTrue h1, isTrue h2 => isTrue (by rw [h0, h1, h2])
    | isFalse h0, _, _ => isFalse (fun he => by cases he; exact h0 rfl)
    | _, isFalse h1, _ => isFalse (fun he => by cases he; exact h1 rfl)
    | _, _, isFalse h2 => isFalse (fun he => by cases he; exact h2 rfl)

end

instance : DecidableEq Py := decEqPy

/-- True exactly when the value is a Python list, dict or tuple, mirroring
the isinstance(elem, (list, dict, tuple)) tests of the source. -/
def isComposite : Py → Bool
  | .list _ => true
  | .dict _ => true
  | .tuple _ => true
  | _ => false

/-- Shape of a modelled jax array (an empty dim contributes a 0 with no
further, unknowable trailing dimensions). -/
def shapeA : Arr → List Nat
  | .cell _ _ => []
  | .dim [] => [0]
  | .dim (x :: xs) => (xs.length + 1) :: shapeA x

/-- Number of dimensions of a modelled jax array (data.ndim). -/
def ndimA (a : Arr) : Nat := (shapeA a).length

mutual

/-- Number of cells of a modelled jax array (data.size). -/
def sizeA : Arr → Nat
  | .cell _ _ => 1
  | .dim xs => sizeAList xs

/-- Sum of the sizes of a list of arrays. -/
def sizeAList : List Arr → Nat
  | [] => 0
  | x :: xs => sizeA x + sizeAList xs

end

/-- Element dtype of a modelled jax array (data.dtype), following the
leading spine; arbitrary on the degenerate empty array. -/
def dtypeArb : Arr → Dty
  | .cell d _ => d
  | .dim [] => .f32
  | .dim (x :: _) => dtypeArb x

/-- Iterating a jax array in Python yields its subarrays along axis 0;
iterating a rank-0 array raises, modelled by the empty list. -/
def arrIterP : Arr → List Py
  | .cell _ _ => []
  | .dim xs => xs.map .arr

/-- Embedding of src/xmap.py is_pytree_leaf: an array is a leaf, a list
with no list, dict or tuple element is a leaf, everything else is not. -/
def is_pytree_leaf : Py → Bool
  | .arr _ => true
  | .list xs => !(xs.any isComposite)
  | _ => false

/-- Elements obtained by Python iteration over a pytree leaf (the
for value in structure loops of the source). -/
def leafIter : Py → List Py
  | .list xs => xs
  | .arr a => arrIterP a
  | _ => []

/-- Embedding of src/xmap.py make_iterable: data.values() for a dict,
the data itself otherwise; Python iteration of the remaining iterable
kinds is spelled out (characters of a string are 1-character strings),
and non-iterable scalars give the empty list (a Python TypeError is
raised separately by the len checks that guard every use). -/
def make_iterable : Py → List Py
  | .dict es => es.map Prod.snd
  | .list xs => xs
  | .tuple xs => xs
  | .arr a => arrIterP a
  | .str s => s.toList.map (fun c => .str (String.mk [c]))
  | _ => []

/-- Python len() of a modelled value, none when len raises a TypeError. -/
def pyLen : Py → Option Nat
  | .dict es => some es.length
  | .list xs => some xs.length
  | .tuple xs => some xs.length
  | .str s => some s.length
  | .arr a => (shapeA a).head?
  | _ => none

mutual

/-- Embedding of src/xmap.py map_pytree_leaves: apply func to every leaf,
funcSingle to every non-pytree scalar, preserving container kind and order.
The source's func_single_values parameter defaults to the identity. -/
def map_pytree_leaves (func : Py → Py) (s : Py) (funcSingle : Py → Py) : Py :=
  if is_pytree_leaf s then func s
  else match s with
  | .dict es => .dict (map_pytree_dict func es funcSingle)
  | .list xs => .list (map_pytree_list func xs funcSingle)
  | .tuple xs => .tuple (map_pytree_list func xs funcSingle)
  | other => funcSingle other

def map_pytree_list (func : Py → Py) (xs : List Py) (funcSingle : Py → Py) : List Py :=
  match xs with
  | [] => []
  | x :: rest => map_pytree_leaves func x funcSingle :: map_pytree_list func rest funcSingle

def map_pytree_dict (func : Py → Py) (es : List (String × Py)) (funcSingle : Py → Py) :
    List (String × Py) :=
  match es with
  | [] => []
  | (k, v) :: rest => (k, map_pytree_leaves func v funcSingle) :: map_pytree_dict func rest funcSingle

end

mutual

/-- Embedding of src/xmap.py find_in_pytree: first element of a leaf
satisfying the condition, searching composites depth-first in iteration
order.  As in Python, a found value of None is indistinguishable from the
not-found sentinel and is therefore collapsed to none. -/
def find_in_pytree (cond : Py → Bool) (s : Py) : Option Py :=
  if is_pytree_leaf s then
    if (leafIter s).find? cond = some .noneV then none else (leafIter s).find? cond
  else match s with
  | .list xs => find_in_list cond xs
  | .tuple xs => find_in_list cond xs
  | .dict es => find_in_dict cond es
  | _ => none

def find_in_list (cond : Py → Bool) (xs : List Py) : Option Py :=
  match xs with
  | [] => none
  | x :: rest =>
    match find_in_pytree cond x with
    | some r => some r
    | none => find_in_list cond rest

def find_in_dict (cond : Py → Bool) (es : List (String × Py)) : Option Py :=
  match es with
  | [] => none
  | (_, v) :: rest =>
    match find_in_pytree cond v with
    | some r => some r
    | none => find_in_dict cond rest

end

/-- The nested filter_leaf of src/xmap.py filter_pytree: keep only the leaf
elements satisfying the condition (a Python list comprehension, so an array
leaf would become a list of its surviving subarrays). -/
def filter_leaf (cond : Py → Bool) (leaf : Py) : Py :=
  .list ((leafIter leaf).filter cond)

/-- Embedding of src/xmap.py filter_pytree: keep, in every leaf, only the
elements satisfying the condition; all other nodes are unchanged. -/
def filter_pytree (cond : Py → Bool) (s : Py) : Py :=
  map_pytree_leaves (filter_leaf cond) s id

/-- The nested index_leaf of src/xmap.py index_in_pytree: position of the
value in the leaf, or None when absent. -/
def index_leaf (value : Py) (leaf : Py) : Py :=
  match (leafIter leaf).findIdx? (fun x => x == value) with
  | some i => .intLit i
  | none => .noneV

/-- Embedding of src/xmap.py index_in_pytree: map every leaf to the index
of the value in it (None when absent), and every non-leaf scalar to None. -/
def index_in_pytree (value : Py) (s : Py) : Py :=
  map_pytree_leaves (index_leaf value) s (fun _ => .noneV)

/-- Failure taxonomy of check_pytree_axis: the three assert messages of the
source (shape mismatch at a rank-descriptor leaf, entry-count mismatch at a
composite node, type mismatch at a type descriptor), plus the Python-level
TypeError/AttributeError raised when len() or .ndim is taken on a value
that does not support it.  Each failure carries the accumulated path. -/
inductive CheckErr where
  | shapeMismatch (info : String)
  | lengthMismatch (info : String)
  | typeMismatch (info : String)
  | pyError (info : String)
deriving DecidableEq

/-- Type-family of a descriptor or dtype: integer, floating, boolean
widths are each batched together; everything else is exact. -/
inductive DFamily where
  | integer | floating | boolean | other
deriving DecidableEq

/-- Family of a dtype. -/
def dtyFamily : Dty → DFamily
  | .i32 => .integer
  | .i64 => .integer
  | .f32 => .floating
  | .f64 => .floating
  | .boolD => .boolean

/-- Family of a Python class, as computed by the jnp.issubdtype(axis, ...)
tests of the source: dtype classes follow their dtype, the builtins int,
float and bool fall into their family, and every other class (for which
all three issubdtype tests are false) is exact. -/
def typeFamily : PyType → DFamily
  | .dcls d => dtyFamily d
  | .pyInt => .integer
  | .pyFloat => .floating
  | .pyBool => .boolean
  | _ => .other

/-- Python type() of a modelled value. -/
def typeOf : Py → PyType
  | .arr _ => .jaxArray
  | .str _ => .pyStr
  | .pytype _ => .typeType
  | .intLit _ => .pyInt
  | .floatLit _ => .pyFloat
  | .boolLit _ => .pyBool
  | .noneV => .noneType
  | .ellipsis => .ellipsisType
  | .list _ => .listCls
  | .dict _ => .dictCls
  | .tuple _ => .tupleCls

/-- The data_type computed by check_pytree_axis: either a dtype (for a
size-one jax array) or a Python class. -/
inductive TyOrD where
  | cls (t : PyType)
  | dty (d : Dty)
deriving DecidableEq

/-- Embedding of the data_type computation in check_pytree_axis: a jax
array holding a single number is classified by its element dtype (it may be
a scalar-shaped tracer), every other value by its Python type. -/
def data_type_of (data : Py) : TyOrD :=
  match data with
  | .arr a => if sizeA a == 1 then .dty (dtypeArb a) else .cls .jaxArray
  | d => .cls (typeOf d)

/-- Family of a data_type, as tested by jnp.issubdtype(data_type, ...). -/
def famTD : TyOrD → DFamily
  | .dty d => dtyFamily d
  | .cls t => typeFamily t

/-- Python isinstance(data, axis) for the modelled values and classes
(including the bool-is-a-subclass-of-int corner). -/
def isinstanceOf (data : Py) (t : PyType) : Bool :=
  (typeOf data == t) ||
    (match data, t with
     | .boolLit _, .pyInt => true
     | _, _ => false)

/-- The rank-descriptor leaf case of check_pytree_axis: assert
len(axis) == data.ndim (a Python error when data has no ndim or the axis
leaf no len). -/
def check_ndim_len : Option Nat → Nat → String → Except CheckErr Unit
  | some n, nd, info => if n = nd then .ok () else .error (.shapeMismatch info)
  | none, _, info => .error (.pyError info)

/-- Rank-descriptor leaf continued: data must expose ndim (a jax array). -/
def check_leaf_axis (data axis : Py) (info : String) : Except CheckErr Unit :=
  match data with
  | .arr a => check_ndim_len (pyLen axis) (ndimA a) info
  | _ => .error (.pyError info)

/-- The entry-count assertion len(axis) == len(data) of check_pytree_axis
(a Python error when data supports no len). -/
def check_length (data : Py) (alen : Nat) (info : String) : Except CheckErr Unit :=
  match pyLen data with
  | none => .error (.pyError info)
  | some n => if alen = n then .ok () else .error (.lengthMismatch info)

/-- The type-descriptor case of check_pytree_axis: integer, floating and
boolean descriptor families each accept any data_type of the same family;
any other descriptor requires isinstance(data, axis). -/
def check_type_axis (data : Py) (t : PyType) (info : String) : Except CheckErr Unit :=
  if typeFamily t = .integer then
    if famTD (data_type_of data) = .integer then .ok () else .error (.typeMismatch info)
  else if typeFamily t = .floating then
    if famTD (data_type_of data) = .floating then .ok () else .error (.typeMismatch info)
  else if typeFamily t = .boolean then
    if famTD (data_type_of data) = .boolean then .ok () else .error (.typeMismatch info)
  else
    if isinstanceOf data t then .ok () else .error (.typeMismatch info)

mutual

/-- Embedding of src/xmap.py check_pytree_axis: checks that the data's
shape is concordant with the given axis specification, reporting the first
failure with the accumulated path.  A rank-descriptor leaf requires its
length to equal the data's ndim; dict and sequence axis nodes require
matching entry counts and recurse pairwise in iteration order; a type
descriptor checks the data_type by family (or isinstance for exact types);
any other scalar axis passes with no check. -/
def check_pytree_axis (data axis : Py) (info : String) : Except CheckErr Unit :=
  if is_pytree_leaf axis then check_leaf_axis data axis info
  else match axis with
  | .dict es =>
    match check_length data es.length info with
    | .error e => .error e
    | .ok _ => check_dict_items (make_iterable data) es info
  | .list xs =>
    match check_length data xs.length info with
    | .error e => .error e
    | .ok _ => check_seq_items (make_iterable data) xs 0 info
  | .tuple xs =>
    match check_length data xs.length info with
    | .error e => .error e
    | .ok _ => check_seq_items (make_iterable data) xs 0 info
  | .pytype t => check_type_axis data t info
  | _ => .ok ()

def check_dict_items (data : List Py) (es : List (String × Py)) (info : String) :
    Except CheckErr Unit :=
  match data, es with
  | d :: ds, (k, a) :: rest =>
    match check_pytree_axis d a (info ++ " '" ++ k ++ "'") with
    | .error e => .error e
    | .ok _ => check_dict_items ds rest info
  | _, _ => .ok ()

def check_seq_items (data : List Py) (axes : List Py) (i : Nat) (info : String) :
    Except CheckErr Unit :=
  match data, axes with
  | d :: ds, a :: rest =>
    match check_pytree_axis d a (info ++ "[" ++ toString i ++ "]") with
    | .error e => .error e
    | .ok _ => check_seq_items ds rest (i + 1) info
  | _, _ => .ok ()

end

/-- The predicate used by recursive_xmap to find named axis labels:
isinstance(a, str). -/
def isStr : Py → Bool
  | .str _ => true
  | _ => false

mutual

/-- Depth-first, pre-order enumeration of the elements a pytree search
visits: the tags of every leaf in order, descending into composite
children in natural iteration order (dict values, then sequence and tuple
elements); bare scalars contribute nothing. -/
def dfsElems (s : Py) : List Py :=
  if is_pytree_leaf s then leafIter s
  else match s with
  | .list xs => dfsElemsList xs
  | .tuple xs => dfsElemsList xs
  | .dict es => dfsElemsDict es
  | _ => []

def dfsElemsList (xs : List Py) : List Py :=
  match xs with
  | [] => []
  | x :: rest => dfsElems x ++ dfsElemsList rest

def dfsElemsDict (es : List (String × Py)) : List Py :=
  match es with
  | [] => []
  | (_, v) :: rest => dfsElems v ++ dfsElemsDict rest

end

/-- The named axis labels of a specification tree, in depth-first
pre-order of appearance (with multiplicity). -/
def dfsStrings (s : Py) : List Py := (dfsElems s).filter isStr

/-- First appearances: deduplicate a list keeping the first occurrence of
every element, in order. -/
def firstAppearances : List Py → List Py
  | [] => []
  | x :: xs => x :: firstAppearances (xs.filter (fun a => a != x))
termination_by l => l.length
decreasing_by
  exact Nat.lt_succ_of_le (List.length_filter_le _ _)

/-- Elements of a pytree leaf are never composite. -/
theorem leafIter_not_composite {s : Py} (h : is_pytree_leaf s = true) :
    ∀ x ∈ leafIter s, isComposite x = false := by
  intro x hx
  cases s with
  | arr a =>
    cases a with
    | cell d v => simp [leafIter, arrIterP] at hx
    | dim xs =>
      simp [leafIter, arrIterP] at hx
      obtain ⟨y, _, rfl⟩ := hx
      rfl
  | list xs =>
    simp only [is_pytree_leaf, Bool.not_eq_true'] at h
    simp only [leafIter] at hx
    have := List.any_eq_false.mp h x hx
    simpa using this
  | _ => simp [leafIter] at hx

/-- A filtered leaf is still a pytree leaf. -/
theorem is_pytree_leaf_filter_leaf {s : Py} (cond : Py → Bool)
    (h : is_pytree_leaf s = true) : is_pytree_leaf (filter_leaf cond s) = true := by
  simp only [filter_leaf, is_pytree_leaf, Bool.not_eq_true']
  apply List.any_eq_false.mpr
  intro x hx
  have hx' := List.mem_of_mem_filter hx
  simpa using leafIter_not_composite h x hx'

/-- The leaf elements of a filtered leaf are the filtered leaf elements. -/
theorem leafIter_filter_leaf (cond : Py → Bool) (s : Py) :
    leafIter (filter_leaf cond s) = (leafIter s).filter cond := by
  simp [filter_leaf, leafIter]

/-- filter_pytree maps composite nodes to composite nodes. -/
theorem isComposite_filter_pytree (cond : Py → Bool) {s : Py}
    (h : isComposite s = true) : isComposite (filter_pytree cond s) = true := by
  cases s with
  | list xs =>
    by_cases hl : is_pytree_leaf (.list xs)
    · simp [filter_pytree, map_pytree_leaves, hl, filter_leaf, isComposite]
    · simp [filter_pytree, map_pytree_leaves, hl, isComposite]
  | dict es =>
    simp [filter_pytree, map_pytree_leaves, is_pytree_leaf, isComposite]
  | tuple xs =>
    simp [filter_pytree, map_pytree_leaves, is_pytree_leaf, isComposite]
  | _ => simp [isComposite] at h


/-- Unfolding lemma: map_pytree_leaves applies func directly to a leaf. -/
theorem map_pytree_leaves_leaf {s : Py} (h : is_pytree_leaf s = true)
    (func funcSingle : Py → Py) : map_pytree_leaves func s funcSingle = func s := by
  rw [map_pytree_leaves.eq_def, if_pos h]

/-- Unfolding lemma: dfsElems of a leaf are its iteration elements. -/
theorem dfsElems_leaf {s : Py} (h : is_pytree_leaf s = true) :
    dfsElems s = leafIter s := by
  rw [dfsElems.eq_def, if_pos h]

/-- map_pytree_list is List.map of map_pytree_leaves. -/
theorem map_pytree_list_eq_map (func : Py → Py) (xs : List Py) (funcSingle : Py → Py) :
    map_pytree_list func xs funcSingle = xs.map (fun x => map_pytree_leaves func x funcSingle) := by
  induction xs with
  | nil => rfl
  | cons x rest ih => rw [map_pytree_list, List.map_cons, ih]

/-- map_pytree_dict is List.map of map_pytree_leaves over the values. -/
theorem map_pytree_dict_eq_map (func : Py → Py) (es : List (String × Py)) (funcSingle : Py → Py) :
    map_pytree_dict func es funcSingle
      = es.map (fun e => (e.1, map_pytree_leaves func e.2 funcSingle)) := by
  induction es with
  | nil => rfl
  | cons e rest ih => cases e; rw [map_pytree_dict, List.map_cons, ih]

mutual

/-- Filtering a pytree filters exactly its depth-first element
enumeration: every occurrence failing the condition is removed from the
leaves, everything else is kept in order. -/
theorem dfsElems_filter (cond : Py → Bool) (s : Py) :
    dfsElems (filter_pytree cond s) = (dfsElems s).filter cond := by
  by_cases hl : is_pytree_leaf s = true
  · rw [filter_pytree, map_pytree_leaves_leaf hl,
      dfsElems_leaf (is_pytree_leaf_filter_leaf cond hl), leafIter_filter_leaf,
      dfsElems_leaf hl]
  · cases s with
    | list xs =>
      have hcomp : xs.any isComposite = true := by
        by_contra hc
        rw [Bool.not_eq_true] at hc
        exact hl (by simp [is_pytree_leaf, hc])
      have hmapped : (map_pytree_list (filter_leaf cond) xs id).any isComposite = true := by
        rw [map_pytree_list_eq_map, List.any_map]
        obtain ⟨c, hc, hcc⟩ := List.any_eq_true.mp hcomp
        exact List.any_eq_true.mpr ⟨c, hc, isComposite_filter_pytree cond hcc⟩
      have h1 : filter_pytree cond (.list xs) = .list (map_pytree_list (filter_leaf cond) xs id) := by
        rw [filter_pytree, map_pytree_leaves.eq_def, if_neg hl]
      rw [h1, dfsElems.eq_def, if_neg (by simp [is_pytree_leaf, hmapped]),
        dfsElems.eq_def, if_neg hl]
      exact dfsElemsList_filter cond xs
    | tuple xs =>
      have h1 : filter_pytree cond (.tuple xs) = .tuple (map_pytree_list (filter_leaf cond) xs id) := by
        rw [filter_pytree, map_pytree_leaves.eq_def, if_neg hl]
      rw [h1, dfsElems.eq_def, if_neg (by simp [is_pytree_leaf]), dfsElems.eq_def, if_neg hl]
      exact dfsElemsList_filter cond xs
    | dict es =>
      have h1 : filter_pytree cond (.dict es) = .dict (map_pytree_dict (filter_leaf cond) es id) := by
        rw [filter_pytree, map_pytree_leaves.eq_def, if_neg hl]
      rw [h1, dfsElems.eq_def, if_neg (by simp [is_pytree_leaf]), dfsElems.eq_def, if_neg hl]
      exact dfsElemsDict_filter cond es
    | arr a => exact absurd (by rfl : is_pytree_leaf (Py.arr a) = true) hl
    | str s =>
      rw [filter_pytree, map_pytree_leaves.eq_def, if_neg hl]
      rfl
    | pytype t =>
      rw [filter_pytree, map_pytree_leaves.eq_def, if_neg hl]
      rfl
    | intLit n =>
      rw [filter_pytree, map_pytree_leaves.eq_def, if_neg hl]
      rfl
    | floatLit i =>
      rw [filter_pytree, map_pytree_leaves.eq_def, if_neg hl]
      rfl
    | boolLit b =>
      rw [filter_pytree, map_pytree_leaves.eq_def, if_neg hl]
      rfl
    | noneV =>
      rw [filter_pytree, map_pytree_leaves.eq_def, if_neg hl]
      rfl
    | ellipsis =>
      rw [filter_pytree, map_pytree_leaves.eq_def, if_neg hl]
      rfl

theorem dfsElemsList_filter (cond : Py → Bool) (xs : List Py) :
    dfsElemsList (map_pytree_list (filter_leaf cond) xs id) = (dfsElemsList xs).filter cond := by
  match xs with
  | [] => rfl
  | x :: rest =>
    rw [map_pytree_list, dfsElemsList, dfsElemsList, List.filter_append]
    rw [dfsElemsList_filter cond rest]
    congr 1
    exact dfsElems_filter cond x

theorem dfsElemsDict_filter (cond : Py → Bool) (es : List (String × Py)) :
    dfsElemsDict (map_pytree_dict (filter_leaf cond) es id) = (dfsElemsDict es).filter cond := by
  match es with
  | [] => rfl
  | (k, v) :: rest =>
    rw [map_pytree_dict, dfsElemsDict, dfsElemsDict, List.filter_append]
    rw [dfsElemsDict_filter cond rest]
    congr 1
    exact dfsElems_filter cond v

end

mutual

/-- Whenever None cannot satisfy the condition, find_in_pytree is exactly
the first element of the depth-first enumeration satisfying it. -/
theorem find_in_pytree_eq (cond : Py → Bool) (hn : cond .noneV = false) (s : Py) :
    find_in_pytree cond s = (dfsElems s).find? cond := by
  by_cases hl : is_pytree_leaf s = true
  · rw [find_in_pytree.eq_def, if_pos hl, dfsElems_leaf hl]
    rcases hfind : (leafIter s).find? cond with _ | v
    · simp
    · have hv : cond v = true := List.find?_some hfind
      have hne : ¬ ((some v : Option Py) = some Py.noneV) := by
        intro he
        cases he
        rw [hn] at hv
        exact absurd hv (by simp)
      rw [if_neg hne]
  · cases s with
    | list xs =>
      rw [find_in_pytree.eq_def, if_neg hl, dfsElems.eq_def, if_neg hl]
      exact find_in_list_eq cond hn xs
    | tuple xs =>
      rw [find_in_pytree.eq_def, if_neg hl, dfsElems.eq_def, if_neg hl]
      exact find_in_list_eq cond hn xs
    | dict es =>
      rw [find_in_pytree.eq_def, if_neg hl, dfsElems.eq_def, if_neg hl]
      exact find_in_dict_eq cond hn es
    | arr a => exact absurd (by rfl : is_pytree_leaf (Py.arr a) = true) hl
    | str x => rfl
    | pytype t => rfl
    | intLit n => rfl
    | floatLit i => rfl
    | boolLit b => rfl
    | noneV => rfl
    | ellipsis => rfl

theorem find_in_list_eq (cond : Py → Bool) (hn : cond .noneV = false) (xs : List Py) :
    find_in_list cond xs = (dfsElemsList xs).find? cond := by
  match xs with
  | [] => rfl
  | x :: rest =>
    rw [find_in_list, dfsElemsList, List.find?_append,
      find_in_pytree_eq cond hn x, find_in_list_eq cond hn rest]
    rcases (dfsElems x).find? cond with _ | v <;> simp [Option.or]

theorem find_in_dict_eq (cond : Py → Bool) (hn : cond .noneV = false)
    (es : List (String × Py)) :
    find_in_dict cond es = (dfsElemsDict es).find? cond := by
  match es with
  | [] => rfl
  | (k, v) :: rest =>
    rw [find_in_dict, dfsElemsDict, List.find?_append,
      find_in_pytree_eq cond hn v, find_in_dict_eq cond hn rest]
    rcases (dfsElems v).find? cond with _ | w <;> simp [Option.or]

end

/-- isStr never holds of None. -/
theorem isStr_noneV : isStr Py.noneV = false := rfl

/-- find? is the head of the filtered list. -/
theorem find?_eq_head?_filter (p : Py → Bool) (l : List Py) :
    l.find? p = (l.filter p).head? := by
  induction l with
  | nil => rfl
  | cons x rest ih =>
    by_cases hx : p x = true
    · rw [List.find?_cons_of_pos _ hx, List.filter_cons_of_pos hx, List.head?_cons]
    · rw [List.find?_cons_of_neg _ (by simp [hx]),
        List.filter_cons_of_neg (by simp [hx]), ih]

/-- The search for a named label is the head of the label enumeration. -/
theorem find_isStr_eq (s : Py) :
    find_in_pytree isStr s = (dfsStrings s).head? := by
  rw [find_in_pytree_eq isStr isStr_noneV, dfsStrings, find?_eq_head?_filter]

/-- Filtering away one label filters the label enumeration. -/
theorem dfsStrings_filter_pytree (cond : Py → Bool) (s : Py) :
    dfsStrings (filter_pytree cond s) = (dfsStrings s).filter cond := by
  rw [dfsStrings, dfsStrings, dfsElems_filter, List.filter_filter, List.filter_filter]
  congr 1
  funext x
  exact Bool.and_comm _ _

/-- Removing an element that is present strictly shrinks a list. -/
theorem length_filter_ne_lt {a : Py} {l : List Py} (h : a ∈ l) :
    (l.filter (fun x => x != a)).length < l.length := by
  induction l with
  | nil => cases h
  | cons x rest ih =>
    by_cases hx : x = a
    · subst hx
      rw [List.filter_cons_of_neg (by simp), List.length_cons]
      calc (rest.filter (fun y => y != x)).length ≤ rest.length := List.length_filter_le _ _
        _ < rest.length + 1 := Nat.lt_succ_self _
    · rcases List.mem_cons.mp h with h1 | h2
      · exact absurd h1.symm hx
      · have := ih h2
        have hxa : (x != a) = true := bne_iff_ne.mpr hx
        simp only [List.filter_cons, hxa, if_true, List.length_cons]
        exact Nat.succ_lt_succ this

/-- Eliminating a found label strictly decreases the number of named-label
occurrences; this bounds the recursion of recursive_xmap. -/
theorem strCount_filter_lt {s L : Py} (h : find_in_pytree isStr s = some L) :
    (dfsStrings (filter_pytree (fun a => a != L) s)).length < (dfsStrings s).length := by
  rw [dfsStrings_filter_pytree]
  apply length_filter_ne_lt
  rw [find_isStr_eq] at h
  exact List.mem_of_mem_head? h

/-- Symbolic form of the callables built by recursive_xmap: the original
function f, a runtime_check_axis wrapper carrying the axis specifications
it validates against, or a call of the external vectorizing primitive vmap
carrying the computed positional in_axes/out_axes index trees. -/
inductive XFun where
  | raw
  | check (inAxes outAxes : Py) (g : XFun)
  | vmap (inIdx outIdx : Py) (g : XFun)
deriving DecidableEq

/-- Embedding of src/xmap.py runtime_check_axis: wrap a function so that
each invocation first checks the arguments against in_axes, then checks
the output against out_axes (behaviour given by XFun.sem below). -/
def runtime_check_axis (func : XFun) (in_axes out_axes : Py) : XFun :=
  .check in_axes out_axes func

/-- Python str() of a named axis label, as interpolated into the
unused-axis assertion message (only strings ever reach it). -/
def py_str : Py → String
  | .str s => s
  | _ => ""

/-- The assertion message of the unused-axis failure in recursive_xmap. -/
def unused_axis_message (l : Py) : String :=
  "Unused input axis: " ++ py_str l ++ ". Check output axes."

/-- Python list(in_axes.values()). -/
def dict_values : Py → List Py
  | .dict es => es.map Prod.snd
  | _ => []

/-- Embedding of src/xmap.py recursive_xmap: find the first named axis in
the output specification; if none is left, assert that no named input axis
remains (unused-axis failure otherwise) and return the runtime-checked f;
otherwise strip every occurrence of the found label from both
specifications, recurse, vectorize the result with vmap at the label's
positional indices, and wrap with a runtime check against the original
unfiltered specifications.  Construction never invokes the wrapped
function, which stays symbolic (XFun.raw). -/
def recursive_xmap (in_axes out_axes : Py) : Except String XFun :=
  match h : find_in_pytree isStr out_axes with
  | none =>
    match find_in_pytree isStr in_axes with
    | some named_input_axis => .error (unused_axis_message named_input_axis)
    | none => .ok (runtime_check_axis .raw in_axes out_axes)
  | some named_output_axis =>
    let filtered_in_axes := filter_pytree (fun a => a != named_output_axis) in_axes
    let filtered_out_axes := filter_pytree (fun a => a != named_output_axis) out_axes
    match recursive_xmap filtered_in_axes filtered_out_axes with
    | .error e => .error e
    | .ok f_batched =>
      let in_axes_indices := index_in_pytree named_output_axis (.list (dict_values in_axes))
      let out_axes_indices := index_in_pytree named_output_axis out_axes
      .ok (runtime_check_axis (.vmap in_axes_indices out_axes_indices f_batched)
            in_axes out_axes)
termination_by (dfsStrings out_axes).length
decreasing_by exact strCount_filter_lt h

/-- Embedding of src/xmap.py xmap: recursive_xmap followed by
set_documentation, which only attaches docstring and signature metadata
and is outside the verified core. -/
def xmap (in_axes out_axes : Py) : Except String XFun :=
  recursive_xmap in_axes out_axes

/-- The labels recursive_xmap eliminates, in elimination order: repeatedly
the first named label found in the output specification, which is then
stripped before continuing. -/
def elimination_order (out_axes : Py) : List Py :=
  match h : find_in_pytree isStr out_axes with
  | none => []
  | some l => l :: elimination_order (filter_pytree (fun a => a != l) out_axes)
termination_by (dfsStrings out_axes).length
decreasing_by exact strCount_filter_lt h

/-- Number of vmap calls in a built callable. -/
def vmapCount : XFun → Nat
  | .raw => 0
  | .check _ _ g => vmapCount g
  | .vmap _ _ g => vmapCount g + 1

/-- The validator wrappers a caller passes through before reaching the
first vectorizing call (or the raw function), with the specifications they
validate against. -/
def outerChecks : XFun → List (Py × Py)
  | .check a b g => (a, b) :: outerChecks g
  | _ => []

mutual

/-- Claim-side predicate, following the specification's words: the value
tree and the specification tree have identical composite shape (matching
container kind and entry count at every level), every rank-descriptor leaf
has length equal to the corresponding value leaf's dimensionality, and
every type tag is consistent with its value. -/
def specOk (data axis : Py) : Bool :=
  if is_pytree_leaf axis then
    match data with
    | .arr a => pyLen axis == some (ndimA a)
    | _ => false
  else match axis with
  | .dict es =>
    match data with
    | .dict ds => es.length == ds.length && specOkDict ds es
    | _ => false
  | .list xs =>
    match data with
    | .list ds => xs.length == ds.length && specOkZip ds xs
    | _ => false
  | .tuple xs =>
    match data with
    | .tuple ds => xs.length == ds.length && specOkZip ds xs
    | _ => false
  | .pytype t =>
    match typeFamily t with
    | .integer => famTD (data_type_of data) == .integer
    | .floating => famTD (data_type_of data) == .floating
    | .boolean => famTD (data_type_of data) == .boolean
    | .other => isinstanceOf data t
  | _ => true

def specOkZip (ds axs : List Py) : Bool :=
  match ds, axs with
  | [], [] => true
  | d :: ds1, a :: axs1 => specOk d a && specOkZip ds1 axs1
  | _, _ => false

def specOkDict (ds es : List (String × Py)) : Bool :=
  match ds, es with
  | [], [] => true
  | (_, d) :: ds1, (_, a) :: es1 => specOk d a && specOkDict ds1 es1
  | _, _ => false

end

/-- Claim-side classification of a runtime value into a type family,
following the specification's words: integer, floating and boolean values
fall into their families, a size-one array is classified by its element
dtype, and everything else (including larger arrays) is outside the three
families. -/
def valueFamily : Py → DFamily
  | .intLit _ => .integer
  | .floatLit _ => .floating
  | .boolLit _ => .boolean
  | .arr a => if sizeA a == 1 then dtyFamily (dtypeArb a) else .other
  | _ => .other

/-- A specification node that is any other scalar: not a leaf, not a
composite, not a type descriptor. -/
def isPlainScalar : Py → Bool
  | .str _ => true
  | .intLit _ => true
  | .floatLit _ => true
  | .boolLit _ => true
  | .noneV => true
  | .ellipsis => true
  | _ => false

/-- The claim-side value classification coincides with the family of the
data_type computed by the source. -/
theorem valueFamily_eq_famTD (d : Py) : valueFamily d = famTD (data_type_of d) := by
  cases d with
  | arr a =>
    by_cases hs : sizeA a == 1
    · simp [valueFamily, data_type_of, hs, famTD]
    · simp only [valueFamily, data_type_of, hs, if_neg]
      rfl
  | str s => rfl
  | pytype t => rfl
  | intLit n => rfl
  | floatLit i => rfl
  | boolLit b => rfl
  | noneV => rfl
  | ellipsis => rfl
  | list xs => rfl
  | dict es => rfl
  | tuple xs => rfl


mutual

/-- Core of the structural-soundness claim: a value tree matching its
specification tree is validated without any failure. -/
theorem check_ok_of_specOk (data axis : Py) (info : String)
    (h : specOk data axis = true) : check_pytree_axis data axis info = .ok () := by
  by_cases hl : is_pytree_leaf axis = true
  · rw [specOk.eq_def, if_pos hl] at h
    simp only [check_pytree_axis.eq_def, hl, if_true]
    cases data with
    | arr a =>
      have hpy : pyLen axis = some (ndimA a) := by simpa using h
      simp only [check_leaf_axis]
      rw [hpy]
      simp [check_ndim_len]
    | str s => exact Bool.noConfusion h
    | pytype t => exact Bool.noConfusion h
    | intLit n => exact Bool.noConfusion h
    | floatLit i => exact Bool.noConfusion h
    | boolLit b => exact Bool.noConfusion h
    | noneV => exact Bool.noConfusion h
    | ellipsis => exact Bool.noConfusion h
    | list xs => exact Bool.noConfusion h
    | dict es => exact Bool.noConfusion h
    | tuple xs => exact Bool.noConfusion h
  · rw [specOk.eq_def, if_neg hl] at h
    cases axis with
    | dict es =>
      cases data with
      | dict ds =>
        simp only [Bool.and_eq_true, beq_iff_eq] at h
        obtain ⟨hlen, hzip⟩ := h
        simp only [check_pytree_axis.eq_def, hl]
        have hck : check_length (Py.dict ds) es.length info = Except.ok () := by
          simp [check_length, pyLen, hlen]
        rw [hck]
        exact check_dict_ok ds es info hzip
      | arr a => exact Bool.noConfusion h
      | str s => exact Bool.noConfusion h
      | pytype t => exact Bool.noConfusion h
      | intLit n => exact Bool.noConfusion h
      | floatLit i => exact Bool.noConfusion h
      | boolLit b => exact Bool.noConfusion h
      | noneV => exact Bool.noConfusion h
      | ellipsis => exact Bool.noConfusion h
      | list xs => exact Bool.noConfusion h
      | tuple xs => exact Bool.noConfusion h
    | list axs =>
      cases data with
      | list ds =>
        simp only [Bool.and_eq_true, beq_iff_eq] at h
        obtain ⟨hlen, hzip⟩ := h
        simp only [check_pytree_axis.eq_def, hl]
        have hck : check_length (Py.list ds) axs.length info = Except.ok () := by
          simp [check_length, pyLen, hlen]
        rw [hck]
        exact check_seq_ok ds axs 0 info hzip
      | arr a => exact Bool.noConfusion h
      | str s => exact Bool.noConfusion h
      | pytype t => exact Bool.noConfusion h
      | intLit n => exact Bool.noConfusion h
      | floatLit i => exact Bool.noConfusion h
      | boolLit b => exact Bool.noConfusion h
      | noneV => exact Bool.noConfusion h
      | ellipsis => exact Bool.noConfusion h
      | dict es => exact Bool.noConfusion h
      | tuple xs => exact Bool.noConfusion h
    | tuple axs =>
      cases data with
      | tuple ds =>
        simp only [Bool.and_eq_true, beq_iff_eq] at h
        obtain ⟨hlen, hzip⟩ := h
        simp only [check_pytree_axis.eq_def, hl]
        have hck : check_length (Py.tuple ds) axs.length info = Except.ok () := by
          simp [check_length, pyLen, hlen]
        rw [hck]
        exact check_seq_ok ds axs 0 info hzip
      | arr a => exact Bool.noConfusion h
      | str s => exact Bool.noConfusion h
      | pytype t => exact Bool.noConfusion h
      | intLit n => exact Bool.noConfusion h
      | floatLit i => exact Bool.noConfusion h
      | boolLit b => exact Bool.noConfusion h
      | noneV => exact Bool.noConfusion h
      | ellipsis => exact Bool.noConfusion h
      | dict es => exact Bool.noConfusion h
      | list xs => exact Bool.noConfusion h
    | pytype t =>
      have h2 : (match typeFamily t with
        | DFamily.integer => famTD (data_type_of data) == DFamily.integer
        | DFamily.floating => famTD (data_type_of data) == DFamily.floating
        | DFamily.boolean => famTD (data_type_of data) == DFamily.boolean
        | DFamily.other => isinstanceOf data t) = true := h
      simp only [check_pytree_axis.eq_def, is_pytree_leaf, Bool.false_eq_true, if_false]
      rcases ht : typeFamily t with _ | _ | _ | _ <;> rw [ht] at h2
      · simp only [beq_iff_eq] at h2
        simp [check_type_axis, ht, h2]
      · simp only [beq_iff_eq] at h2
        simp [check_type_axis, ht, h2]
      · simp only [beq_iff_eq] at h2
        simp [check_type_axis, ht, h2]
      · have h3 : isinstanceOf data t = true := h2
        simp [check_type_axis, ht, h3]
    | arr a => exact absurd rfl hl
    | str s => simp [check_pytree_axis.eq_def, is_pytree_leaf]
    | intLit n => simp [check_pytree_axis.eq_def, is_pytree_leaf]
    | floatLit i => simp [check_pytree_axis.eq_def, is_pytree_leaf]
    | boolLit b => simp [check_pytree_axis.eq_def, is_pytree_leaf]
    | noneV => simp [check_pytree_axis.eq_def, is_pytree_leaf]
    | ellipsis => simp [check_pytree_axis.eq_def, is_pytree_leaf]

theorem check_seq_ok (ds axs : List Py) (i : Nat) (info : String)
    (h : specOkZip ds axs = true) : check_seq_items ds axs i info = .ok () := by
  match ds, axs with
  | [], [] => rfl
  | [], a :: axs1 => exact Bool.noConfusion h
  | d :: ds1, [] => exact Bool.noConfusion h
  | d :: ds1, a :: axs1 =>
    rw [specOkZip] at h
    simp only [Bool.and_eq_true] at h
    rw [check_seq_items, check_ok_of_specOk d a _ h.1]
    exact check_seq_ok ds1 axs1 (i + 1) info h.2

theorem check_dict_ok (ds es : List (String × Py)) (info : String)
    (h : specOkDict ds es = true) :
    check_dict_items (ds.map Prod.snd) es info = .ok () := by
  match ds, es with
  | [], [] => rfl
  | [], e :: es1 => exact Bool.noConfusion h
  | d :: ds1, [] => exact Bool.noConfusion h
  | (kd, d) :: ds1, (ka, a) :: es1 =>
    rw [specOkDict] at h
    simp only [Bool.and_eq_true] at h
    rw [List.map_cons, check_dict_items, check_ok_of_specOk d a _ h.1]
    exact check_dict_ok ds1 es1 info h.2

end

/-- Option-valued mapM over lists, spelled out for easy reasoning. -/
def omapM (f : α → Option β) : List α → Option (List β)
  | [] => some []
  | x :: xs =>
    match f x with
    | none => none
    | some y =>
      match omapM f xs with
      | none => none
      | some ys => some (y :: ys)

mutual

/-- Slice of an array at position i of dimension k (x[:, ..., i, ...]). -/
def sliceAxis (k i : Nat) (a : Arr) : Option Arr :=
  match k, a with
  | 0, .dim xs => xs[i]?
  | Nat.succ k1, .dim xs =>
    match sliceAxisList k1 i xs with
    | some ys => some (.dim ys)
    | none => none
  | _, .cell _ _ => none

def sliceAxisList (k i : Nat) (xs : List Arr) : Option (List Arr) :=
  match xs with
  | [] => some []
  | x :: rest =>
    match sliceAxis k i x with
    | none => none
    | some y =>
      match sliceAxisList k i rest with
      | none => none
      | some ys => some (y :: ys)

end

mutual

/-- Slice one argument value tree at batch position i, guided by a
positional index tree as produced by index_in_pytree: an integer leaf
slices the array leaf at that dimension, None leaves the subtree
untouched (broadcast), containers recurse pairwise. -/
def sliceTree (idx : Py) (i : Nat) (v : Py) : Option Py :=
  match idx, v with
  | .noneV, w => some w
  | .intLit k, .arr a =>
    match sliceAxis k.toNat i a with
    | some b => some (.arr b)
    | none => none
  | .list ts, .list vs =>
    match sliceTreeList ts i vs with
    | some ws => some (.list ws)
    | none => none
  | .tuple ts, .tuple vs =>
    match sliceTreeList ts i vs with
    | some ws => some (.tuple ws)
    | none => none
  | .dict ts, .dict vs =>
    match sliceTreeDict ts i vs with
    | some ws => some (.dict ws)
    | none => none
  | _, _ => none

def sliceTreeList (ts : List Py) (i : Nat) (vs : List Py) : Option (List Py) :=
  match ts, vs with
  | [], [] => some []
  | t :: ts1, v :: vs1 =>
    match sliceTree t i v with
    | none => none
    | some w =>
      match sliceTreeList ts1 i vs1 with
      | none => none
      | some ws => some (w :: ws)
  | _, _ => none

def sliceTreeDict (ts : List (String × Py)) (i : Nat) (vs : List (String × Py)) :
    Option (List (String × Py)) :=
  match ts, vs with
  | [], [] => some []
  | (_, t) :: ts1, (k, v) :: vs1 =>
    match sliceTree t i v with
    | none => none
    | some w =>
      match sliceTreeDict ts1 i vs1 with
      | none => none
      | some ws => some ((k, w) :: ws)
  | _, _ => none

end

mutual

/-- Batch sizes contributed by one argument: the extent of the sliced
dimension wherever the index tree holds an integer position. -/
def gatherSizes (idx v : Py) : Option (List Nat) :=
  match idx, v with
  | .noneV, _ => some []
  | .intLit k, .arr a =>
    match (shapeA a)[k.toNat]? with
    | some n => some [n]
    | none => none
  | .list ts, .list vs => gatherSizesList ts vs
  | .tuple ts, .tuple vs => gatherSizesList ts vs
  | .dict ts, .dict vs => gatherSizesDict ts vs
  | _, _ => none

def gatherSizesList (ts vs : List Py) : Option (List Nat) :=
  match ts, vs with
  | [], [] => some []
  | t :: ts1, v :: vs1 =>
    match gatherSizes t v with
    | none => none
    | some ns =>
      match gatherSizesList ts1 vs1 with
      | none => none
      | some ms => some (ns ++ ms)
  | _, _ => none

def gatherSizesDict (ts vs : List (String × Py)) : Option (List Nat) :=
  match ts, vs with
  | [], [] => some []
  | (_, t) :: ts1, (_, v) :: vs1 =>
    match gatherSizes t v with
    | none => none
    | some ns =>
      match gatherSizesDict ts1 vs1 with
      | none => none
      | some ms => some (ns ++ ms)
  | _, _ => none

end

/-- Children of a list of arrays, all of which must be non-scalar. -/
def dimChildren : List Arr → Option (List (List Arr))
  | [] => some []
  | .dim ys :: rest =>
    match dimChildren rest with
    | some ls => some (ys :: ls)
    | none => none
  | .cell _ _ :: _ => none

/-- All member lists have the same length. -/
def allSameLength : List (List Arr) → Bool
  | [] => true
  | l :: ls => ls.all (fun x => x.length == l.length)

/-- Stack a list of arrays along a new dimension inserted at position k. -/
def stackAxis : Nat → List Arr → Option Arr
  | 0, xs => some (.dim xs)
  | Nat.succ k, xs =>
    match dimChildren xs with
    | none => none
    | some ls =>
      if allSameLength ls then
        match omapM (stackAxis k) ls.transpose with
        | some ys => some (.dim ys)
        | none => none
      else none

/-- Heads and tails of a list of lists (none when any is empty). -/
def headsTails : List (List Py) → Option (List Py × List (List Py))
  | [] => some ([], [])
  | [] :: _ => none
  | (x :: xs) :: rest =>
    match headsTails rest with
    | some (hs, ts) => some (x :: hs, xs :: ts)
    | none => none

/-- Heads and tails of a list of dict entry lists. -/
def headsTailsD : List (List (String × Py)) →
    Option (List (String × Py) × List (List (String × Py)))
  | [] => some ([], [])
  | [] :: _ => none
  | (e :: es) :: rest =>
    match headsTailsD rest with
    | some (hs, ts) => some (e :: hs, es :: ts)
    | none => none

/-- Each element as an array. -/
def getArrs : List Py → Option (List Arr)
  | [] => some []
  | .arr a :: rest =>
    match getArrs rest with
    | some as_ => some (a :: as_)
    | none => none
  | _ => none

/-- Each element as a list. -/
def getLists : List Py → Option (List (List Py))
  | [] => some []
  | .list xs :: rest =>
    match getLists rest with
    | some ls => some (xs :: ls)
    | none => none
  | _ => none

/-- Each element as a tuple. -/
def getTuples : List Py → Option (List (List Py))
  | [] => some []
  | .tuple xs :: rest =>
    match getTuples rest with
    | some ls => some (xs :: ls)
    | none => none
  | _ => none

/-- Each element as a dict. -/
def getDicts : List Py → Option (List (List (String × Py)))
  | [] => some []
  | .dict es :: rest =>
    match getDicts rest with
    | some ls => some (es :: ls)
    | none => none
  | _ => none

mutual

/-- Modelled from the spec: the external vectorizing primitive's output
recombination.  The per-slice results are stacked along a new dimension at
the integer position of the output index tree; a None output index returns
the (necessarily batch-independent) common value, erroring when the
per-slice results disagree; containers recurse pairwise. -/
def stackTree (outIdx : Py) (outs : List Py) : Option Py :=
  match outIdx with
  | .intLit k =>
    match getArrs outs with
    | some as_ =>
      match stackAxis k.toNat as_ with
      | some a => some (.arr a)
      | none => none
    | none => none
  | .noneV =>
    match outs with
    | [] => none
    | x :: rest => if rest.all (fun y => y == x) then some x else none
  | .list ts =>
    match getLists outs with
    | some ls =>
      match stackColumns ts ls with
      | some ws => some (.list ws)
      | none => none
    | none => none
  | .tuple ts =>
    match getTuples outs with
    | some ls =>
      match stackColumns ts ls with
      | some ws => some (.tuple ws)
      | none => none
    | none => none
  | .dict es =>
    match getDicts outs with
    | some ls =>
      match stackDictColumns es ls with
      | some ws => some (.dict ws)
      | none => none
    | none => none
  | _ => none

def stackColumns (ts : List Py) (ls : List (List Py)) : Option (List Py) :=
  match ts with
  | [] => if ls.all (fun l => l == []) then some [] else none
  | t :: ts1 =>
    match headsTails ls with
    | none => none
    | some (hs, tls) =>
      match stackTree t hs with
      | none => none
      | some w =>
        match stackColumns ts1 tls with
        | some ws => some (w :: ws)
        | none => none

def stackDictColumns (es : List (String × Py)) (ls : List (List (String × Py))) :
    Option (List (String × Py)) :=
  match es with
  | [] => if ls.all (fun l => l == []) then some [] else none
  | (k, t) :: es1 =>
    match headsTailsD ls with
    | none => none
    | some (hs, tls) =>
      match stackTree t (hs.map Prod.snd) with
      | none => none
      | some w =>
        match stackDictColumns es1 tls with
        | some ws => some ((k, w) :: ws)
        | none => none

end

/-- Modelled from the spec: the external single-axis vectorizing primitive
(jax vmap, consumed but not reimplemented by the source).  Given per
argument positional in_axes and a positional out_axes tree, it determines
the batch extent from the mapped argument dimensions (all of which must
agree, and at least one must be mapped), applies the function to every
argument slice in order, and recombines the per-slice results with
stackTree. -/
def vmapSem (fn : List Py → Option Py) (inIdx outIdx : Py) (args : List Py) : Option Py :=
  match inIdx with
  | .list ts =>
    if ts.length = args.length then
      match gatherSizesList ts args with
      | none => none
      | some [] => none
      | some (n :: rest) =>
        if rest.all (fun m => m == n) then
          match omapM (fun i =>
              match sliceTreeList ts i args with
              | some sliced => fn sliced
              | none => none) (List.range n) with
          | some outs => stackTree outIdx outs
          | none => none
        else none
    else none
  | _ => none

/-- The runtime validator succeeds. -/
def isOkCheck (data axis : Py) (info : String) : Bool :=
  match check_pytree_axis data axis info with
  | .ok _ => true
  | .error _ => false

/-- Runtime behaviour of a built callable, given the behaviour of the
wrapped function on argument lists: a check node validates the argument
tuple against in_axes, runs the inner function, validates the output
against out_axes (the two check_pytree_axis calls of runtime_check_axis);
a vmap node behaves as the external vectorizing primitive; errors of any
kind are collapsed to none. -/
def XFun.sem (base : List Py → Option Py) : XFun → List Py → Option Py
  | .raw, args => base args
  | .check inA outA g, args =>
    if isOkCheck (.tuple args) inA "Inputs" then
      match XFun.sem base g args with
      | some out => if isOkCheck out outA "Output" then some out else none
      | none => none
    else none
  | .vmap inIdx outIdx g, args => vmapSem (fun bs => XFun.sem base g bs) inIdx outIdx args

/-- firstAppearances keeps exactly the distinct elements of a list. -/
theorem mem_firstAppearances (l : List Py) (a : Py) :
    a ∈ firstAppearances l ↔ a ∈ l := by
  match l with
  | [] => rw [firstAppearances]
  | x :: xs =>
    rw [firstAppearances]
    by_cases hax : a = x
    · subst hax
      simp
    · have ih := mem_firstAppearances (xs.filter (fun b => b != x)) a
      simp only [List.mem_cons, ih, List.mem_filter, bne_iff_ne]
      constructor
      · rintro (rfl | ⟨h1, _⟩)
        · exact absurd rfl hax
        · exact Or.inr h1
      · rintro (rfl | h1)
        · exact absurd rfl hax
        · exact Or.inr ⟨h1, hax⟩
termination_by l.length
decreasing_by exact Nat.lt_succ_of_le (List.length_filter_le _ _)

/-- firstAppearances has no duplicates. -/
theorem firstAppearances_nodup (l : List Py) : (firstAppearances l).Nodup := by
  match l with
  | [] => rw [firstAppearances]; exact List.nodup_nil
  | x :: xs =>
    rw [firstAppearances]
    refine List.Nodup.cons ?_ (firstAppearances_nodup (xs.filter (fun b => b != x)))
    intro hx
    rw [mem_firstAppearances] at hx
    rw [List.mem_filter] at hx
    exact absurd rfl (bne_iff_ne.mp hx.2)
termination_by l.length
decreasing_by exact Nat.lt_succ_of_le (List.length_filter_le _ _)

/-- The order in which recursive_xmap eliminates labels is exactly the
order of first depth-first appearance in the output specification. -/
theorem elimination_order_eq (out : Py) :
    elimination_order out = firstAppearances (dfsStrings out) := by
  rw [elimination_order.eq_def]
  rcases h : find_in_pytree isStr out with _ | L
  · rw [find_isStr_eq] at h
    rw [List.head?_eq_none_iff] at h
    rw [h, firstAppearances]
  · have hh := h
    rw [find_isStr_eq] at hh
    rcases hds : dfsStrings out with _ | ⟨y, tail⟩
    · rw [hds] at hh; exact absurd hh (by simp)
    · rw [hds] at hh
      simp only [List.head?_cons, Option.some_inj] at hh
      subst hh
      rw [firstAppearances]
      have ih := elimination_order_eq (filter_pytree (fun a => a != y) out)
      show y :: elimination_order (filter_pytree (fun a => a != y) out)
        = y :: firstAppearances (tail.filter (fun a => a != y))
      rw [ih, dfsStrings_filter_pytree, hds, List.filter_cons_of_neg (by simp)]
termination_by (dfsStrings out).length
decreasing_by exact strCount_filter_lt h

/-- Unfolding: the terminal case of recursive_xmap (no named label left
anywhere) returns the runtime-checked raw function. -/
theorem recursive_xmap_terminal {inA outA : Py}
    (h : find_in_pytree isStr outA = none) (h2 : find_in_pytree isStr inA = none) :
    recursive_xmap inA outA = .ok (.check inA outA .raw) := by
  rw [recursive_xmap.eq_def]
  split
  · rw [h2]
    rfl
  · next L hL => rw [h] at hL; exact Option.noConfusion hL

/-- Unfolding: the terminal case with a leftover named input label fails
with the unused-axis assertion. -/
theorem recursive_xmap_unused {inA outA L : Py}
    (h : find_in_pytree isStr outA = none) (h2 : find_in_pytree isStr inA = some L) :
    recursive_xmap inA outA = .error (unused_axis_message L) := by
  rw [recursive_xmap.eq_def]
  split
  · rw [h2]
  · next L2 hL => rw [h] at hL; exact Option.noConfusion hL

/-- Unfolding: the recursive case of recursive_xmap. -/
theorem recursive_xmap_step {inA outA L : Py}
    (h : find_in_pytree isStr outA = some L) :
    recursive_xmap inA outA =
      (match recursive_xmap (filter_pytree (fun a => a != L) inA)
          (filter_pytree (fun a => a != L) outA) with
       | .error e => .error e
       | .ok g => .ok (.check inA outA
           (.vmap (index_in_pytree L (.list (dict_values inA)))
             (index_in_pytree L outA) g))) := by
  rw [recursive_xmap.eq_def]
  split
  · next hL => rw [h] at hL; exact Option.noConfusion hL
  · next L2 hL =>
    rw [h] at hL
    cases hL
    rfl

/-- Unfolding: elimination_order when no label is left. -/
theorem elimination_order_none {out : Py} (h : find_in_pytree isStr out = none) :
    elimination_order out = [] := by
  rw [elimination_order.eq_def]
  split
  · rfl
  · next L hL => rw [h] at hL; exact Option.noConfusion hL

/-- Unfolding: elimination_order when a label is found. -/
theorem elimination_order_some {out L : Py} (h : find_in_pytree isStr out = some L) :
    elimination_order out = L :: elimination_order (filter_pytree (fun a => a != L) out) := by
  rw [elimination_order.eq_def]
  split
  · next hL => rw [h] at hL; exact Option.noConfusion hL
  · next L2 hL =>
    rw [h] at hL
    cases hL
    rfl

/-- Core of the unused-axis claim: a named label occurring in the input
specification but nowhere in the output specification forces recursive_xmap
to fail, at construction, with the unused-axis message naming a label that
is itself declared in the inputs and absent from the outputs. -/
theorem unused_axis_of (inA outA La : Py)
    (hin : La ∈ dfsStrings inA) (hout : La ∉ dfsStrings outA) :
    ∃ Lp, Lp ∈ dfsStrings inA ∧ Lp ∉ dfsStrings outA ∧
      recursive_xmap inA outA = .error (unused_axis_message Lp) := by
  rcases h : find_in_pytree isStr outA with _ | L
  · rcases hds : dfsStrings inA with _ | ⟨y, tl⟩
    · rw [hds] at hin; cases hin
    · have h2 : find_in_pytree isStr inA = some y := by
        rw [find_isStr_eq, hds]; rfl
      rw [find_isStr_eq, List.head?_eq_none_iff] at h
      refine ⟨y, ?_, ?_, recursive_xmap_unused (by rw [find_isStr_eq, h]; rfl) h2⟩
      · simp [hds]
      · rw [h]; exact List.not_mem_nil _
  · have hLout : L ∈ dfsStrings outA := by
      rw [find_isStr_eq] at h
      exact List.mem_of_mem_head? h
    have hne : La ≠ L := fun he => hout (he ▸ hLout)
    have hin2 : La ∈ dfsStrings (filter_pytree (fun a => a != L) inA) := by
      rw [dfsStrings_filter_pytree, List.mem_filter]
      exact ⟨hin, bne_iff_ne.mpr hne⟩
    have hout2 : La ∉ dfsStrings (filter_pytree (fun a => a != L) outA) := by
      rw [dfsStrings_filter_pytree, List.mem_filter]
      intro hc
      exact hout hc.1
    obtain ⟨Lp, hp1, hp2, hp3⟩ := unused_axis_of _ _ La hin2 hout2
    rw [dfsStrings_filter_pytree, List.mem_filter] at hp1
    have hpne : Lp ≠ L := bne_iff_ne.mp hp1.2
    refine ⟨Lp, hp1.1, ?_, ?_⟩
    · intro hc
      apply hp2
      rw [dfsStrings_filter_pytree, List.mem_filter]
      exact ⟨hc, bne_iff_ne.mpr hpne⟩
    · rw [recursive_xmap_step h, hp3]
termination_by (dfsStrings outA).length
decreasing_by exact strCount_filter_lt h

/-- A successfully built callable contains one vmap call per eliminated
label. -/
theorem recursive_xmap_vmapCount (inA outA : Py) (f : XFun)
    (hok : recursive_xmap inA outA = .ok f) :
    vmapCount f = (elimination_order outA).length := by
  rcases h : find_in_pytree isStr outA with _ | L
  · rcases h2 : find_in_pytree isStr inA with _ | Li
    · rw [recursive_xmap_terminal h h2] at hok
      cases hok
      rw [elimination_order_none h]
      rfl
    · rw [recursive_xmap_unused h h2] at hok
      exact Except.noConfusion hok
  · rw [recursive_xmap_step h] at hok
    rcases hr : recursive_xmap (filter_pytree (fun a => a != L) inA)
        (filter_pytree (fun a => a != L) outA) with e | g
    · rw [hr] at hok
      exact Except.noConfusion hok
    · rw [hr] at hok
      cases hok
      rw [elimination_order_some h]
      have ih := recursive_xmap_vmapCount _ _ g hr
      show vmapCount g + 1 = (elimination_order (filter_pytree (fun a => a != L) outA)).length + 1
      rw [ih]
termination_by (dfsStrings outA).length
decreasing_by exact strCount_filter_lt h

/-- omapM respects pointwise-equal functions. -/
theorem omapM_congr {f g : α → Option β} (l : List α) (h : ∀ a ∈ l, f a = g a) :
    omapM f l = omapM g l := by
  induction l with
  | nil => rfl
  | cons x xs ih =>
    rw [omapM, omapM, h x (List.mem_cons_self _ _), ih (fun a ha => h a (List.mem_cons_of_mem _ ha))]

/-- omapM over a mapped list composes the functions. -/
theorem omapM_map {f : β → Option γ} {h : α → β} (l : List α) :
    omapM f (l.map h) = omapM (fun a => f (h a)) l := by
  induction l with
  | nil => rfl
  | cons x xs ih => rw [List.map_cons, omapM, omapM, ih]

/-- omapM of a total function is the plain map. -/
theorem omapM_some_map {g : α → β} (l : List α) :
    omapM (fun a => some (g a)) l = some (l.map g) := by
  induction l with
  | nil => rfl
  | cons x xs ih => rw [omapM, ih, List.map_cons]

/-- Look an index up in a list and continue, the shape of the per-slice
body used by the vectorizing primitive. -/
def lookupThen (g : α → Option β) (l : List α) (i : Nat) : Option β :=
  match l[i]? with
  | some a => g a
  | none => none

/-- Running an indexed body over range n, where the body looks up the
index in a list of that length, is omapM over the list itself. -/
theorem omapM_range {g : α → Option β} (l : List α) :
    omapM (lookupThen g l) (List.range l.length) = omapM g l := by
  induction l with
  | nil => rfl
  | cons x xs ih =>
    rw [List.length_cons, List.range_succ_eq_map, omapM, omapM_map]
    have hpt : ∀ i ∈ List.range xs.length,
        lookupThen g (x :: xs) i.succ = lookupThen g xs i := fun i _ => by
      rw [lookupThen, lookupThen, List.getElem?_cons_succ]
    rw [omapM_congr (List.range xs.length) hpt, ih]
    conv_rhs => rw [omapM]
    rw [show lookupThen g (x :: xs) 0 = g x from by rw [lookupThen, List.getElem?_cons_zero]]

/-- A scalar-shaped jax array holding one number. -/
def arr0 (d : Dty) (n : Int) : Py := .arr (.cell d n)

/-- A rank-1 jax array holding a list of numbers. -/
def arr1 (d : Dty) (l : List Int) : Py := .arr (.dim (l.map (.cell d)))

/-- Shape of a rank-1 array. -/
theorem shapeA_arr1 (d : Dty) (l : List Int) :
    shapeA (.dim (l.map (.cell d))) = [l.length] := by
  cases l with
  | nil => rfl
  | cons a t => simp [List.map_cons, shapeA, List.length_map]

/-- getLists recovers the members of a list of Python lists. -/
theorem getLists_map {f : α → List Py} (l : List α) :
    getLists (l.map (fun a => .list (f a))) = some (l.map f) := by
  induction l with
  | nil => rfl
  | cons x xs ih => rw [List.map_cons, getLists, ih, List.map_cons]

/-- getArrs recovers the members of a list of arrays. -/
theorem getArrs_map {f : α → Arr} (l : List α) :
    getArrs (l.map (fun a => .arr (f a))) = some (l.map f) := by
  induction l with
  | nil => rfl
  | cons x xs ih => rw [List.map_cons, getArrs, ih, List.map_cons]

/-- headsTails splits a map of nonempty lists into heads and tails. -/
theorem headsTails_map {f : α → Py} {g : α → List Py} (l : List α) :
    headsTails (l.map (fun a => f a :: g a)) = some (l.map f, l.map g) := by
  induction l with
  | nil => rfl
  | cons x xs ih => rw [List.map_cons, headsTails, ih, List.map_cons, List.map_cons]

/-- Every member of a constant map is equal to the constant. -/
theorem all_beq_const (A : Py) (l : List α) :
    (l.map (fun _ => A)).all (fun y => y == A) = true := by
  induction l with
  | nil => rfl
  | cons x xs ih => simp_all

/-- Stacking a batch-independent output at a None position returns the
common value, for a nonempty batch. -/
theorem stackTree_noneV_map_const (A : Py) (l : List α) (hl : l ≠ []) :
    stackTree .noneV (l.map (fun _ => A)) = some A := by
  cases l with
  | nil => exact absurd rfl hl
  | cons x xs =>
    rw [List.map_cons, stackTree]
    rw [all_beq_const]
    rfl

/-- A constant map of empty lists is all empty. -/
theorem all_nil_map (l : List α) :
    ((l.map (fun _ => ([] : List Py))).all (fun x => x == [])) = true := by
  induction l with
  | nil => rfl
  | cons x xs ih => simp_all

/-- The two-label scenario of the commutativity property: two independent
labels on disjoint arguments and disjoint output positions. -/
def specInAB : Py := .dict [("x", .list [.str "a"]), ("y", .list [.str "b"])]

/-- Output specification discovering label a first. -/
def specOutAB : Py := .list [.list [.str "a"], .list [.str "b"]]

/-- Output specification with the two sibling positions swapped, so that
label b is discovered first. -/
def specOutBA : Py := .list [.list [.str "b"], .list [.str "a"]]

/-- Specifications after eliminating a from the AB pair. -/
def finAB1 : Py := .dict [("x", .list []), ("y", .list [.str "b"])]

def foutAB1 : Py := .list [.list [], .list [.str "b"]]

/-- Specifications after eliminating b from the BA pair. -/
def finBA1 : Py := .dict [("x", .list [.str "a"]), ("y", .list [])]

def foutBA1 : Py := .list [.list [], .list [.str "a"]]

/-- Specifications with both labels eliminated. -/
def finBoth : Py := .dict [("x", .list []), ("y", .list [])]

def foutBoth : Py := .list [.list [], .list []]

/-- The terminal callable shared by both elimination orders. -/
def gTerm : XFun := .check finBoth foutBoth .raw

/-- Inner level of the AB order (vectorizes b). -/
def gAB2 : XFun :=
  .check finAB1 foutAB1 (.vmap (.list [.noneV, .intLit 0]) (.list [.noneV, .intLit 0]) gTerm)

/-- The callable built for the AB order (a outermost). -/
def fAB : XFun :=
  .check specInAB specOutAB (.vmap (.list [.intLit 0, .noneV]) (.list [.intLit 0, .noneV]) gAB2)

/-- Inner level of the BA order (vectorizes a). -/
def gBA2 : XFun :=
  .check finBA1 foutBA1 (.vmap (.list [.intLit 0, .noneV]) (.list [.noneV, .intLit 0]) gTerm)

/-- The callable built for the BA order (b outermost). -/
def fBA : XFun :=
  .check specInAB specOutBA (.vmap (.list [.noneV, .intLit 0]) (.list [.intLit 0, .noneV]) gBA2)

/-- A wrapped function with two scalar arguments and two outputs on
disjoint arguments: f(x, y) = (u(x), v(y)) on scalar-shaped arrays. -/
def fUV (u v : Int → Int) : List Py → Option Py
  | [.arr (.cell d1 x), .arr (.cell d2 y)] =>
    some (.list [.arr (.cell d1 (u x)), .arr (.cell d2 (v y))])
  | _ => none

/-- The same function with its two outputs swapped, matching the swapped
output specification. -/
def fVU (u v : Int → Int) : List Py → Option Py
  | [.arr (.cell d1 x), .arr (.cell d2 y)] =>
    some (.list [.arr (.cell d2 (v y)), .arr (.cell d1 (u x))])
  | _ => none

/-- Construction evaluates as expected on the axis-free pair. -/
theorem rx_eval_both : recursive_xmap finBoth foutBoth = .ok gTerm :=
  recursive_xmap_terminal rfl rfl

/-- Construction for the AB pair after one elimination. -/
theorem rx_eval_AB1 : recursive_xmap finAB1 foutAB1 = .ok gAB2 := by
  rw [recursive_xmap_step (show find_in_pytree isStr foutAB1 = some (.str "b") from rfl)]
  rw [show filter_pytree (fun a => a != Py.str "b") finAB1 = finBoth from rfl,
    show filter_pytree (fun a => a != Py.str "b") foutAB1 = foutBoth from rfl,
    rx_eval_both]
  rfl

/-- Construction for the AB pair. -/
theorem rx_eval_AB : recursive_xmap specInAB specOutAB = .ok fAB := by
  rw [recursive_xmap_step (show find_in_pytree isStr specOutAB = some (.str "a") from rfl)]
  rw [show filter_pytree (fun a => a != Py.str "a") specInAB = finAB1 from rfl,
    show filter_pytree (fun a => a != Py.str "a") specOutAB = foutAB1 from rfl,
    rx_eval_AB1]
  rfl

/-- Construction for the BA pair after one elimination. -/
theorem rx_eval_BA1 : recursive_xmap finBA1 foutBA1 = .ok gBA2 := by
  rw [recursive_xmap_step (show find_in_pytree isStr foutBA1 = some (.str "a") from rfl)]
  rw [show filter_pytree (fun a => a != Py.str "a") finBA1 = finBoth from rfl,
    show filter_pytree (fun a => a != Py.str "a") foutBA1 = foutBoth from rfl,
    rx_eval_both]
  rfl

/-- Construction for the BA pair. -/
theorem rx_eval_BA : recursive_xmap specInAB specOutBA = .ok fBA := by
  rw [recursive_xmap_step (show find_in_pytree isStr specOutBA = some (.str "b") from rfl)]
  rw [show filter_pytree (fun a => a != Py.str "b") specInAB = finBA1 from rfl,
    show filter_pytree (fun a => a != Py.str "b") specOutBA = foutBA1 from rfl,
    rx_eval_BA1]
  rfl

/-- Behaviour of the terminal callable on scalar slices. -/
theorem sem_gTerm_UV (u v : Int → Int) (d1 d2 : Dty) (x y : Int) :
    XFun.sem (fUV u v) gTerm [arr0 d1 x, arr0 d2 y]
      = some (.list [arr0 d1 (u x), arr0 d2 (v y)]) := rfl

/-- Behaviour of the terminal callable of the swapped order. -/
theorem sem_gTerm_VU (u v : Int → Int) (d1 d2 : Dty) (x y : Int) :
    XFun.sem (fVU u v) gTerm [arr0 d1 x, arr0 d2 y]
      = some (.list [arr0 d2 (v y), arr0 d1 (u x)]) := rfl

/-- Stacking pairwise outputs whose first position is batch-independent
and whose second position is mapped at axis 0. -/
theorem stack_pair_noneInt (A : Py) (B : Int → Py) (C : Int → Arr) (ys : List Int)
    (hy : ys ≠ []) (hB : ∀ yj, B yj = Py.arr (C yj)) :
    stackTree (.list [.noneV, .intLit 0]) (ys.map (fun yj => Py.list [A, B yj]))
      = some (.list [A, .arr (.dim (ys.map C))]) := by
  rw [stackTree]
  rw [show (fun yj => Py.list [A, B yj]) = (fun yj => Py.list ([A, B yj])) from rfl]
  rw [getLists_map]
  simp only []
  rw [stackColumns]
  rw [show (fun yj => [A, B yj]) = (fun yj => A :: [B yj]) from rfl]
  rw [headsTails_map]
  simp only []
  rw [show (fun yj : Int => A) = (fun _ : Int => A) from rfl]
  rw [stackTree_noneV_map_const A ys hy]
  simp only []
  rw [stackColumns]
  rw [show (fun yj => [B yj]) = (fun yj => B yj :: []) from rfl]
  rw [headsTails_map]
  simp only []
  rw [show B = (fun yj => Py.arr (C yj)) from funext hB]
  rw [stackTree, getArrs_map]
  simp only []
  rw [stackAxis.eq_def]
  rw [stackColumns]
  rw [all_nil_map]
  rfl

/-- Stacking pairwise outputs whose first position is mapped at axis 0
and whose second position is batch-independent. -/
theorem stack_pair_intNone (A : Int → Py) (B : Py) (C : Int → Arr) (xs : List Int)
    (hx : xs ≠ []) (hA : ∀ x, A x = Py.arr (C x)) :
    stackTree (.list [.intLit 0, .noneV]) (xs.map (fun x => Py.list [A x, B]))
      = some (.list [.arr (.dim (xs.map C)), B]) := by
  rw [stackTree]
  rw [show (fun x => Py.list [A x, B]) = (fun x => Py.list ([A x, B])) from rfl]
  rw [getLists_map]
  simp only []
  rw [stackColumns]
  rw [show (fun x => [A x, B]) = (fun x => A x :: [B]) from rfl]
  rw [headsTails_map]
  simp only []
  rw [show A = (fun x => Py.arr (C x)) from funext hA]
  rw [stackTree, getArrs_map]
  simp only []
  rw [stackAxis.eq_def]
  rw [stackColumns]
  rw [show (fun x : Int => [B]) = (fun x : Int => B :: []) from rfl]
  rw [headsTails_map]
  simp only []
  rw [show (fun x : Int => B) = (fun _ : Int => B) from rfl]
  rw [stackTree_noneV_map_const B xs hx]
  simp only []
  rw [stackColumns]
  rw [all_nil_map]
  rfl

/-- Bridging a mapped cell list with arr1. -/
theorem arr_dim_map_cell (d : Dty) (v : Int → Int) (ys : List Int) :
    Py.arr (Arr.dim (ys.map (fun yj => Arr.cell d (v yj)))) = arr1 d (ys.map v) := by
  rw [arr1, List.map_map]
  rfl

/-- Behaviour of the inner level of the AB order: it batches the second
argument along b, broadcasting the first. -/
theorem sem_gAB2 (u v : Int → Int) (d : Dty) (x : Int) (ys : List Int) (hy : ys ≠ []) :
    XFun.sem (fUV u v) gAB2 [arr0 d x, arr1 d ys]
      = some (.list [arr0 d (u x), arr1 d (ys.map v)]) := by
  have hin : isOkCheck (.tuple [arr0 d x, arr1 d ys]) finAB1 "Inputs" = true := by
    cases ys with
    | nil => rfl
    | cons y t => rfl
  have hout : isOkCheck (.list [arr0 d (u x), arr1 d (ys.map v)]) foutAB1 "Output" = true := by
    cases ys with
    | nil => rfl
    | cons y t => rfl
  have hgather : gatherSizesList [.noneV, .intLit 0] [arr0 d x, arr1 d ys]
      = some [ys.length] := by
    simp [gatherSizesList, gatherSizes, arr0, arr1, shapeA_arr1]
  have hslice : ∀ j ∈ List.range ys.length,
      (match sliceTreeList [Py.noneV, Py.intLit 0] j [arr0 d x, arr1 d ys] with
        | some sliced => XFun.sem (fUV u v) gTerm sliced
        | none => none)
      = lookupThen (fun yj => some (Py.list [arr0 d (u x), arr0 d (v yj)])) ys j := by
    intro j hj
    rw [List.mem_range] at hj
    have hj2 : ys[j]? = some ys[j] := List.getElem?_eq_getElem hj
    have h1 : (ys.map (Arr.cell d))[j]? = some (Arr.cell d (ys[j])) := by
      rw [List.getElem?_map, hj2]
      rfl
    have hsl : sliceTreeList [Py.noneV, Py.intLit 0] j [arr0 d x, arr1 d ys]
        = some [arr0 d x, arr0 d (ys[j])] := by
      simp [sliceTreeList, sliceTree, sliceAxis, arr1, arr0, h1]
    rw [hsl, lookupThen, hj2]
    simp only []
    exact sem_gTerm_UV u v d d x ys[j]
  rw [gAB2, XFun.sem, hin, if_pos rfl]
  rw [XFun.sem, vmapSem]
  rw [if_pos (by rfl : [Py.noneV, Py.intLit 0].length = [arr0 d x, arr1 d ys].length)]
  rw [hgather]
  simp only []
  rw [if_pos (show (([] : List Nat).all fun m => m == ys.length) = true from rfl)]
  rw [omapM_congr (List.range ys.length) hslice]
  rw [omapM_range, omapM_some_map]
  simp only []
  rw [stack_pair_noneInt (arr0 d (u x)) (fun yj => arr0 d (v yj))
    (fun yj => Arr.cell d (v yj)) ys hy (fun yj => rfl)]
  simp only []
  rw [arr_dim_map_cell, hout, if_pos rfl]

/-- Behaviour of the inner level of the BA order: it batches the first
argument along a, broadcasting the second. -/
theorem sem_gBA2 (u v : Int → Int) (d : Dty) (y : Int) (xs : List Int) (hx : xs ≠ []) :
    XFun.sem (fVU u v) gBA2 [arr1 d xs, arr0 d y]
      = some (.list [arr0 d (v y), arr1 d (xs.map u)]) := by
  have hin : isOkCheck (.tuple [arr1 d xs, arr0 d y]) finBA1 "Inputs" = true := by
    cases xs with
    | nil => rfl
    | cons x t => rfl
  have hout : isOkCheck (.list [arr0 d (v y), arr1 d (xs.map u)]) foutBA1 "Output" = true := by
    cases xs with
    | nil => rfl
    | cons x t => rfl
  have hgather : gatherSizesList [.intLit 0, .noneV] [arr1 d xs, arr0 d y]
      = some [xs.length] := by
    simp [gatherSizesList, gatherSizes, arr0, arr1, shapeA_arr1]
  have hslice : ∀ j ∈ List.range xs.length,
      (match sliceTreeList [Py.intLit 0, Py.noneV] j [arr1 d xs, arr0 d y] with
        | some sliced => XFun.sem (fVU u v) gTerm sliced
        | none => none)
      = lookupThen (fun xi => some (Py.list [arr0 d (v y), arr0 d (u xi)])) xs j := by
    intro j hj
    rw [List.mem_range] at hj
    have hj2 : xs[j]? = some xs[j] := List.getElem?_eq_getElem hj
    have h1 : (xs.map (Arr.cell d))[j]? = some (Arr.cell d (xs[j])) := by
      rw [List.getElem?_map, hj2]
      rfl
    have hsl : sliceTreeList [Py.intLit 0, Py.noneV] j [arr1 d xs, arr0 d y]
        = some [arr0 d (xs[j]), arr0 d y] := by
      simp [sliceTreeList, sliceTree, sliceAxis, arr1, arr0, h1]
    rw [hsl, lookupThen, hj2]
    simp only []
    exact sem_gTerm_VU u v d d xs[j] y
  rw [gBA2, XFun.sem, hin, if_pos rfl]
  rw [XFun.sem, vmapSem]
  rw [if_pos (by rfl : [Py.intLit 0, Py.noneV].length = [arr1 d xs, arr0 d y].length)]
  rw [hgather]
  simp only []
  rw [if_pos (show (([] : List Nat).all fun m => m == xs.length) = true from rfl)]
  rw [omapM_congr (List.range xs.length) hslice]
  rw [omapM_range, omapM_some_map]
  simp only []
  rw [stack_pair_noneInt (arr0 d (v y)) (fun xi => arr0 d (u xi))
    (fun xi => Arr.cell d (u xi)) xs hx (fun xi => rfl)]
  simp only []
  rw [arr_dim_map_cell, hout, if_pos rfl]

/-- Behaviour of the callable built with discovery order a then b. -/
theorem sem_fAB (u v : Int → Int) (d : Dty) (xs ys : List Int)
    (hx : xs ≠ []) (hy : ys ≠ []) :
    XFun.sem (fUV u v) fAB [arr1 d xs, arr1 d ys]
      = some (.list [arr1 d (xs.map u), arr1 d (ys.map v)]) := by
  have hin : isOkCheck (.tuple [arr1 d xs, arr1 d ys]) specInAB "Inputs" = true := by
    cases xs with
    | nil => cases ys with
      | nil => rfl
      | cons y t => rfl
    | cons x s => cases ys with
      | nil => rfl
      | cons y t => rfl
  have hout : isOkCheck (.list [arr1 d (xs.map u), arr1 d (ys.map v)])
      specOutAB "Output" = true := by
    cases xs with
    | nil => cases ys with
      | nil => rfl
      | cons y t => rfl
    | cons x s => cases ys with
      | nil => rfl
      | cons y t => rfl
  have hgather : gatherSizesList [.intLit 0, .noneV] [arr1 d xs, arr1 d ys]
      = some [xs.length] := by
    simp [gatherSizesList, gatherSizes, arr1, shapeA_arr1]
  have hslice : ∀ j ∈ List.range xs.length,
      (match sliceTreeList [Py.intLit 0, Py.noneV] j [arr1 d xs, arr1 d ys] with
        | some sliced => XFun.sem (fUV u v) gAB2 sliced
        | none => none)
      = lookupThen (fun xi => some (Py.list [arr0 d (u xi), arr1 d (ys.map v)])) xs j := by
    intro j hj
    rw [List.mem_range] at hj
    have hj2 : xs[j]? = some xs[j] := List.getElem?_eq_getElem hj
    have h1 : (xs.map (Arr.cell d))[j]? = some (Arr.cell d (xs[j])) := by
      rw [List.getElem?_map, hj2]
      rfl
    have hsl : sliceTreeList [Py.intLit 0, Py.noneV] j [arr1 d xs, arr1 d ys]
        = some [arr0 d (xs[j]), arr1 d ys] := by
      simp [sliceTreeList, sliceTree, sliceAxis, arr1, arr0, h1]
    rw [hsl, lookupThen, hj2]
    simp only []
    exact sem_gAB2 u v d xs[j] ys hy
  rw [fAB, XFun.sem, hin, if_pos rfl]
  rw [XFun.sem, vmapSem]
  rw [if_pos (by rfl : [Py.intLit 0, Py.noneV].length = [arr1 d xs, arr1 d ys].length)]
  rw [hgather]
  simp only []
  rw [if_pos (show (([] : List Nat).all fun m => m == xs.length) = true from rfl)]
  rw [omapM_congr (List.range xs.length) hslice]
  rw [omapM_range, omapM_some_map]
  simp only []
  rw [stack_pair_intNone (fun xi => arr0 d (u xi)) (arr1 d (ys.map v))
    (fun xi => Arr.cell d (u xi)) xs hx (fun xi => rfl)]
  simp only []
  rw [arr_dim_map_cell, hout, if_pos rfl]

/-- Behaviour of the callable built with discovery order b then a. -/
theorem sem_fBA (u v : Int → Int) (d : Dty) (xs ys : List Int)
    (hx : xs ≠ []) (hy : ys ≠ []) :
    XFun.sem (fVU u v) fBA [arr1 d xs, arr1 d ys]
      = some (.list [arr1 d (ys.map v), arr1 d (xs.map u)]) := by
  have hin : isOkCheck (.tuple [arr1 d xs, arr1 d ys]) specInAB "Inputs" = true := by
    cases xs with
    | nil => cases ys with
      | nil => rfl
      | cons y t => rfl
    | cons x s => cases ys with
      | nil => rfl
      | cons y t => rfl
  have hout : isOkCheck (.list [arr1 d (ys.map v), arr1 d (xs.map u)])
      specOutBA "Output" = true := by
    cases xs with
    | nil => cases ys with
      | nil => rfl
      | cons y t => rfl
    | cons x s => cases ys with
      | nil => rfl
      | cons y t => rfl
  have hgather : gatherSizesList [.noneV, .intLit 0] [arr1 d xs, arr1 d ys]
      = some [ys.length] := by
    simp [gatherSizesList, gatherSizes, arr1, shapeA_arr1]
  have hslice : ∀ j ∈ List.range ys.length,
      (match sliceTreeList [Py.noneV, Py.intLit 0] j [arr1 d xs, arr1 d ys] with
        | some sliced => XFun.sem (fVU u v) gBA2 sliced
        | none => none)
      = lookupThen (fun yj => some (Py.list [arr0 d (v yj), arr1 d (xs.map u)])) ys j := by
    intro j hj
    rw [List.mem_range] at hj
    have hj2 : ys[j]? = some ys[j] := List.getElem?_eq_getElem hj
    have h1 : (ys.map (Arr.cell d))[j]? = some (Arr.cell d (ys[j])) := by
      rw [List.getElem?_map, hj2]
      rfl
    have hsl : sliceTreeList [Py.noneV, Py.intLit 0] j [arr1 d xs, arr1 d ys]
        = some [arr1 d xs, arr0 d (ys[j])] := by
      simp [sliceTreeList, sliceTree, sliceAxis, arr1, arr0, h1]
    rw [hsl, lookupThen, hj2]
    simp only []
    exact sem_gBA2 u v d ys[j] xs hx
  rw [fBA, XFun.sem, hin, if_pos rfl]
  rw [XFun.sem, vmapSem]
  rw [if_pos (by rfl : [Py.noneV, Py.intLit 0].length = [arr1 d xs, arr1 d ys].length)]
  rw [hgather]
  simp only []
  rw [if_pos (show (([] : List Nat).all fun m => m == ys.length) = true from rfl)]
  rw [omapM_congr (List.range ys.length) hslice]
  rw [omapM_range, omapM_some_map]
  simp only []
  rw [stack_pair_intNone (fun yj => arr0 d (v yj)) (arr1 d (xs.map u))
    (fun yj => Arr.cell d (v yj)) ys hy (fun yj => rfl)]
  simp only []
  rw [arr_dim_map_cell, hout, if_pos rfl]

/-- A type-descriptor axis node routes to check_type_axis. -/
theorem check_pytype_eq (data : Py) (t : PyType) (info : String) :
    check_pytree_axis data (.pytype t) info = check_type_axis data t info := by
  simp only [check_pytree_axis.eq_def, is_pytree_leaf, Bool.false_eq_true, if_false]

/-- For a descriptor outside the three families, isinstance degenerates to
an exact match of the Python type (the bool-int subclass corner needs the
integer-family descriptor int, which is excluded). -/
theorem isinstance_eq_typeOf (data : Py) (t : PyType) (ht : typeFamily t = .other) :
    isinstanceOf data t = (typeOf data == t) := by
  cases data <;> cases t <;>
    first
      | rfl
      | exact absurd ht (by decide)

/-- C1: recursive_xmap eliminates named axis labels in increasing order of
their first depth-first, pre-order appearance in the output specification
tree (elimination_order equals the first-appearance ordering of the
depth-first label enumeration), and the first label so encountered
receives the outermost vectorization: the built callable is exactly the
runtime check around the vmap call for that label, wrapping the callable
recursively built for all remaining labels. -/
theorem c1_elimination_order (inA outA : Py) (f : XFun)
    (hok : recursive_xmap inA outA = .ok f) :
    elimination_order outA = firstAppearances (dfsStrings outA) ∧
    ∀ L rest, firstAppearances (dfsStrings outA) = L :: rest →
      ∃ g, recursive_xmap (filter_pytree (fun a => a != L) inA)
            (filter_pytree (fun a => a != L) outA) = .ok g ∧
        f = .check inA outA
          (.vmap (index_in_pytree L (.list (dict_values inA)))
            (index_in_pytree L outA) g) := by
  refine ⟨elimination_order_eq outA, ?_⟩
  intro L rest hfa
  have he : elimination_order outA = L :: rest := by
    rw [elimination_order_eq]
    exact hfa
  rcases h : find_in_pytree isStr outA with _ | L0
  · rw [elimination_order_none h] at he
    exact List.noConfusion he
  · have he2 := elimination_order_some h
    rw [he] at he2
    injection he2 with h1 h2
    subst h1
    rw [recursive_xmap_step h] at hok
    rcases hr : recursive_xmap (filter_pytree (fun a => a != L) inA)
        (filter_pytree (fun a => a != L) outA) with e | g
    · rw [hr] at hok
      exact Except.noConfusion hok
    · rw [hr] at hok
      have hok2 : Except.ok (ε := String) (XFun.check inA outA
          (.vmap (index_in_pytree L (.list (dict_values inA)))
            (index_in_pytree L outA) g)) = .ok f := hok
      injection hok2 with h3
      exact ⟨g, rfl, h3.symm⟩

/-- C2: recursive_xmap terminates on every specification pair (it is a
total function of this development), with one recursion step and exactly
one vmap call per distinct named label of the output specification: the
vmap count of a successfully built callable equals the length of the
duplicate-free first-appearance list of output labels, and every
elimination step removes every occurrence of its label from a
specification tree at once, leaving all other labels. -/
theorem c2_termination_steps (inA outA : Py) (f : XFun)
    (hok : recursive_xmap inA outA = .ok f) :
    vmapCount f = (firstAppearances (dfsStrings outA)).length ∧
    (firstAppearances (dfsStrings outA)).Nodup ∧
    (∀ a, a ∈ firstAppearances (dfsStrings outA) ↔ a ∈ dfsStrings outA) ∧
    (∀ L t, dfsStrings (filter_pytree (fun a => a != L) t)
      = (dfsStrings t).filter (fun a => a != L)) := by
  refine ⟨?_, firstAppearances_nodup _, fun a => mem_firstAppearances _ a,
    fun L t => dfsStrings_filter_pytree _ t⟩
  rw [recursive_xmap_vmapCount inA outA f hok, elimination_order_eq]

/-- C3: whenever some named label occurs among the input specification's
leaf tags but nowhere among the output specification's leaf tags,
recursive_xmap fails at construction time with the unused-axis assertion
naming such a label (construction is purely symbolic here, so the wrapped
function is never invoked); in particular building with input axes
x : [a] and output axes [b] fails naming a. -/
theorem c3_unused_axis_error :
    (∀ inA outA La, La ∈ dfsStrings inA → La ∉ dfsStrings outA →
      ∃ Lp, Lp ∈ dfsStrings inA ∧ Lp ∉ dfsStrings outA ∧
        recursive_xmap inA outA = .error (unused_axis_message Lp)) ∧
    xmap (.dict [("x", .list [.str "a"])]) (.list [.str "b"])
      = .error (unused_axis_message (.str "a")) := by
  refine ⟨unused_axis_of, ?_⟩
  rw [xmap]
  rw [recursive_xmap_step
    (show find_in_pytree isStr (Py.list [.str "b"]) = some (.str "b") from rfl)]
  rw [show filter_pytree (fun a => a != Py.str "b") (Py.dict [("x", Py.list [Py.str "a"])])
      = Py.dict [("x", Py.list [Py.str "a"])] from rfl,
    show filter_pytree (fun a => a != Py.str "b") (Py.list [Py.str "b"]) = Py.list [] from rfl]
  rw [recursive_xmap_unused
    (show find_in_pytree isStr (Py.list []) = none from rfl)
    (show find_in_pytree isStr (Py.dict [("x", Py.list [Py.str "a"])])
      = some (.str "a") from rfl)]

/-- C4: every value returned by recursive_xmap, in the terminal case and
in each recursive case alike, is wrapped by the runtime validator checked
against that call's own original, unfiltered input/output specifications;
the caller passes through exactly one validator before the first
vectorizing call, and it carries the full, unfiltered specification pair
(every intermediate level's validator sits inside the vmap nesting, out of
the caller's direct path). -/
theorem c4_outermost_validation (inA outA : Py) (f : XFun)
    (hok : recursive_xmap inA outA = .ok f) :
    (∃ g, f = XFun.check inA outA g) ∧ outerChecks f = [(inA, outA)] := by
  rcases h : find_in_pytree isStr outA with _ | L
  · rcases h2 : find_in_pytree isStr inA with _ | Li
    · rw [recursive_xmap_terminal h h2] at hok
      injection hok with h3
      subst h3
      exact ⟨⟨.raw, rfl⟩, rfl⟩
    · rw [recursive_xmap_unused h h2] at hok
      exact Except.noConfusion hok
  · rw [recursive_xmap_step h] at hok
    rcases hr : recursive_xmap (filter_pytree (fun a => a != L) inA)
        (filter_pytree (fun a => a != L) outA) with e | g
    · rw [hr] at hok
      exact Except.noConfusion hok
    · rw [hr] at hok
      have hok2 : Except.ok (ε := String) (XFun.check inA outA
          (.vmap (index_in_pytree L (.list (dict_values inA)))
            (index_in_pytree L outA) g)) = .ok f := hok
      injection hok2 with h3
      subst h3
      exact ⟨⟨_, rfl⟩, rfl⟩

/-- C5: for every value tree and specification tree of identical composite
shape, whose rank descriptors have length equal to the corresponding value
leaf's dimensionality and whose type tags are consistent with the values
(the specOk predicate), check_pytree_axis never raises; in particular a
specification node that is any other scalar (not a rank descriptor,
composite or type descriptor) always passes with no check. -/
theorem c5_structural_soundness :
    (∀ data axis info, specOk data axis = true →
      check_pytree_axis data axis info = .ok ()) ∧
    (∀ data axis info, isPlainScalar axis = true →
      check_pytree_axis data axis info = .ok ()) := by
  refine ⟨check_ok_of_specOk, ?_⟩
  intro data axis info hps
  cases axis with
  | str s => simp [check_pytree_axis.eq_def, is_pytree_leaf]
  | intLit n => simp [check_pytree_axis.eq_def, is_pytree_leaf]
  | floatLit i => simp [check_pytree_axis.eq_def, is_pytree_leaf]
  | boolLit b => simp [check_pytree_axis.eq_def, is_pytree_leaf]
  | noneV => simp [check_pytree_axis.eq_def, is_pytree_leaf]
  | ellipsis => simp [check_pytree_axis.eq_def, is_pytree_leaf]
  | arr a => exact Bool.noConfusion hps
  | pytype t => exact Bool.noConfusion hps
  | list xs => exact Bool.noConfusion hps
  | dict es => exact Bool.noConfusion hps
  | tuple xs => exact Bool.noConfusion hps

/-- C6: a type-descriptor leaf of the integer, floating or boolean family
accepts exactly the values of that family (any subtype within it) and
rejects every other value with a type-mismatch error; a size-one array
value is classified by its element dtype rather than its container type
for this matching. -/
theorem c6_type_family_tolerance (t : PyType) (data : Py) (info : String) (fam : DFamily)
    (ht : typeFamily t = fam) (hf : fam ≠ DFamily.other) :
    (check_pytree_axis data (.pytype t) info = .ok () ↔ valueFamily data = fam) ∧
    (valueFamily data ≠ fam → check_pytree_axis data (.pytype t) info
      = .error (.typeMismatch info)) ∧
    (∀ a : Arr, sizeA a = 1 → data_type_of (.arr a) = .dty (dtypeArb a)) := by
  refine ⟨?_, ?_, ?_⟩
  · rw [check_pytype_eq, valueFamily_eq_famTD]
    rcases fam with _ | _ | _ | _
    · by_cases hd : famTD (data_type_of data) = DFamily.integer <;>
        simp [check_type_axis, ht, hd]
    · by_cases hd : famTD (data_type_of data) = DFamily.floating <;>
        simp [check_type_axis, ht, hd]
    · by_cases hd : famTD (data_type_of data) = DFamily.boolean <;>
        simp [check_type_axis, ht, hd]
    · exact absurd rfl hf
  · intro hne
    rw [valueFamily_eq_famTD] at hne
    rw [check_pytype_eq]
    rcases fam with _ | _ | _ | _
    · simp [check_type_axis, ht, hne]
    · simp [check_type_axis, ht, hne]
    · simp [check_type_axis, ht, hne]
    · exact absurd rfl hf
  · intro a ha
    simp [data_type_of, ha]

/-- C7: a type-descriptor leaf outside the integer, floating and boolean
families requires an exact match between the value's Python type and the
descriptor, raising a type-mismatch error for any value whose type is not
exactly the declared type. -/
theorem c7_exact_type_match (t : PyType) (data : Py) (info : String)
    (ht : typeFamily t = .other) :
    (check_pytree_axis data (.pytype t) info = .ok () ↔ typeOf data = t) ∧
    (typeOf data ≠ t → check_pytree_axis data (.pytype t) info
      = .error (.typeMismatch info)) := by
  have hiso := isinstance_eq_typeOf data t ht
  rw [check_pytype_eq]
  constructor
  · by_cases hd : typeOf data = t <;> simp [check_type_axis, ht, hiso, hd]
  · intro hne
    simp [check_type_axis, ht, hiso, hne]

/-- C8 (counterexample): find_in_pytree does not always return the first
element satisfying the predicate: at the tree [[None], [5]] with the
always-true predicate the first satisfying element in depth-first order is
None, yet the search returns 5 (a found None is indistinguishable from the
not-found sentinel); with the is-None predicate a satisfying element
exists, yet the search reports not-found. -/
theorem c8_none_counterexample :
    dfsElems (Py.list [Py.list [Py.noneV], Py.list [Py.intLit 5]])
      = [Py.noneV, Py.intLit 5] ∧
    (fun _ : Py => true) Py.noneV = true ∧
    find_in_pytree (fun _ => true) (Py.list [Py.list [Py.noneV], Py.list [Py.intLit 5]])
      = some (Py.intLit 5) ∧
    (fun a : Py => a == Py.noneV) Py.noneV = true ∧
    find_in_pytree (fun a => a == Py.noneV)
      (Py.list [Py.list [Py.noneV], Py.list [Py.intLit 5]]) = none := by
  refine ⟨rfl, rfl, rfl, ?_, rfl⟩
  decide

/-- C8 (amended): find_in_pytree performs a depth-first, pre-order
traversal, applying the predicate to each tag of a leaf in order and
visiting composite children in natural iteration order, and — provided the
None marker does not satisfy the predicate — returns the first satisfying
element of that enumeration, or the not-found result when no element
satisfies (a satisfying None would be conflated with the not-found
sentinel and skipped). -/
theorem c8_find_first_satisfying (cond : Py → Bool) (t : Py)
    (hn : cond Py.noneV = false) :
    find_in_pytree cond t = (dfsElems t).find? cond :=
  find_in_pytree_eq cond hn t

/-- C9: for two distinct named labels on disjoint arguments and disjoint
output positions, the callables produced by recursive_xmap compute
identical component results regardless of which label is discovered first
in the output traversal: with the sibling output positions swapped (and
the wrapped function's outputs swapped to match), both elimination orders
produce exactly the broadcast-batched results u mapped over the first
argument and v mapped over the second. -/
theorem c9_multi_axis_commutativity (u v : Int → Int) (d : Dty) (xs ys : List Int)
    (hx : xs ≠ []) (hy : ys ≠ []) :
    recursive_xmap specInAB specOutAB = .ok fAB ∧
    recursive_xmap specInAB specOutBA = .ok fBA ∧
    elimination_order specOutAB = [.str "a", .str "b"] ∧
    elimination_order specOutBA = [.str "b", .str "a"] ∧
    XFun.sem (fUV u v) fAB [arr1 d xs, arr1 d ys]
      = some (.list [arr1 d (xs.map u), arr1 d (ys.map v)]) ∧
    XFun.sem (fVU u v) fBA [arr1 d xs, arr1 d ys]
      = some (.list [arr1 d (ys.map v), arr1 d (xs.map u)]) := by
  refine ⟨rx_eval_AB, rx_eval_BA, ?_, ?_, sem_fAB u v d xs ys hx hy,
    sem_fBA u v d xs ys hx hy⟩
  · rw [elimination_order_some
      (show find_in_pytree isStr specOutAB = some (.str "a") from rfl)]
    rw [show filter_pytree (fun a => a != Py.str "a") specOutAB = foutAB1 from rfl]
    rw [elimination_order_some
      (show find_in_pytree isStr foutAB1 = some (.str "b") from rfl)]
    rw [show filter_pytree (fun a => a != Py.str "b") foutAB1 = foutBoth from rfl]
    rw [elimination_order_none (show find_in_pytree isStr foutBoth = none from rfl)]
  · rw [elimination_order_some
      (show find_in_pytree isStr specOutBA = some (.str "b") from rfl)]
    rw [show filter_pytree (fun a => a != Py.str "b") specOutBA = foutBA1 from rfl]
    rw [elimination_order_some
      (show find_in_pytree isStr foutBA1 = some (.str "a") from rfl)]
    rw [show filter_pytree (fun a => a != Py.str "a") foutBA1 = foutBoth from rfl]
    rw [elimination_order_none (show find_in_pytree isStr foutBoth = none from rfl)]

/-- C10: a named axis label written as a bare string leaf (not wrapped in
a list) is classified by is_pytree_leaf as neither a leaf nor a composite;
consequently find_in_pytree never returns it, filter_pytree passes it
through unchanged, index_in_pytree maps it to the absent marker None, it
contributes nothing to the label enumeration, and recursive_xmap silently
treats it as an unconstrained scalar, performing no elimination (no vmap
call) for it. -/
theorem c10_bare_string_label (s : String) (cond : Py → Bool) (v : Py) :
    is_pytree_leaf (.str s) = false ∧
    isComposite (.str s) = false ∧
    find_in_pytree cond (.str s) = none ∧
    filter_pytree cond (.str s) = .str s ∧
    index_in_pytree v (.str s) = .noneV ∧
    dfsStrings (.str s) = [] ∧
    recursive_xmap (.dict [("x", .str "a")]) (.str "a")
      = .ok (.check (.dict [("x", .str "a")]) (.str "a") .raw) ∧
    vmapCount (.check (.dict [("x", .str "a")]) (.str "a") .raw) = 0 := by
  refine ⟨rfl, rfl, rfl, rfl, rfl, rfl, ?_, rfl⟩
  exact recursive_xmap_terminal rfl rfl

/-- Witness for C1 at the concrete two-label scenario. -/
theorem c1_elimination_order_witness :
    ∃ g, recursive_xmap (filter_pytree (fun a => a != Py.str "a") specInAB)
          (filter_pytree (fun a => a != Py.str "a") specOutAB) = .ok g ∧
      fAB = .check specInAB specOutAB
        (.vmap (index_in_pytree (Py.str "a") (.list (dict_values specInAB)))
          (index_in_pytree (Py.str "a") specOutAB) g) := by
  have hfa : firstAppearances (dfsStrings specOutAB) = Py.str "a" :: [Py.str "b"] := by
    rw [show dfsStrings specOutAB = [Py.str "a", Py.str "b"] from rfl]
    rw [firstAppearances]
    rw [show List.filter (fun a => a != Py.str "a") [Py.str "b"] = [Py.str "b"] from rfl]
    rw [firstAppearances]
    rw [show List.filter (fun a => a != Py.str "b") ([] : List Py) = [] from rfl]
    rw [firstAppearances]
  exact (c1_elimination_order specInAB specOutAB fAB rx_eval_AB).2
    (Py.str "a") [Py.str "b"] hfa

/-- Witness for C2 at the concrete two-label scenario. -/
theorem c2_termination_steps_witness :
    vmapCount fAB = (firstAppearances (dfsStrings specOutAB)).length :=
  (c2_termination_steps specInAB specOutAB fAB rx_eval_AB).1

/-- Witness for C3 at the example of the claim. -/
theorem c3_unused_axis_error_witness :
    ∃ Lp, Lp ∈ dfsStrings (Py.dict [("x", Py.list [Py.str "a"])]) ∧
      Lp ∉ dfsStrings (Py.list [Py.str "b"]) ∧
      recursive_xmap (.dict [("x", .list [.str "a"])]) (.list [.str "b"])
        = .error (unused_axis_message Lp) :=
  (c3_unused_axis_error).1 _ _ (Py.str "a") (by decide) (by decide)

/-- Witness for C4 at the concrete two-label scenario. -/
theorem c4_outermost_validation_witness :
    (∃ g, fAB = XFun.check specInAB specOutAB g) ∧
    outerChecks fAB = [(specInAB, specOutAB)] :=
  c4_outermost_validation specInAB specOutAB fAB rx_eval_AB

/-- Witness for C5 at a concrete value/specification pair and a concrete
plain-scalar specification node. -/
theorem c5_structural_soundness_witness :
    specOk (Py.dict [("x", Py.arr (.dim [.cell .i32 7]))])
      (Py.dict [("x", Py.list [Py.str "batch"])]) = true ∧
    check_pytree_axis (Py.dict [("x", Py.arr (.dim [.cell .i32 7]))])
      (Py.dict [("x", Py.list [Py.str "batch"])]) "Inputs" = .ok () ∧
    isPlainScalar Py.ellipsis = true ∧
    check_pytree_axis (Py.intLit 3) Py.ellipsis "Inputs" = .ok () :=
  ⟨by decide, (c5_structural_soundness).1 _ _ _ (by decide),
   by decide, (c5_structural_soundness).2 _ _ _ (by decide)⟩

/-- Witness for C6: an integer-family descriptor accepts a size-one array
of another integer width and rejects a floating-point value with a
type-mismatch error. -/
theorem c6_type_family_tolerance_witness :
    check_pytree_axis (Py.arr (.cell .i64 5)) (.pytype (.dcls .i32)) "Inputs" = .ok () ∧
    check_pytree_axis (Py.floatLit 2) (.pytype (.dcls .i32)) "Inputs"
      = .error (.typeMismatch "Inputs") :=
  ⟨(c6_type_family_tolerance (.dcls .i32) (Py.arr (.cell .i64 5)) "Inputs" .integer rfl
      (by decide)).1.mpr (by decide),
   (c6_type_family_tolerance (.dcls .i32) (Py.floatLit 2) "Inputs" .integer rfl
      (by decide)).2.1 (by decide)⟩

/-- Witness for C7: an exact descriptor accepts only values of exactly the
declared type. -/
theorem c7_exact_type_match_witness :
    check_pytree_axis (Py.str "hi") (.pytype .pyStr) "Output" = .ok () ∧
    check_pytree_axis (Py.intLit 1) (.pytype .pyStr) "Output"
      = .error (.typeMismatch "Output") :=
  ⟨(c7_exact_type_match .pyStr (Py.str "hi") "Output" rfl).1.mpr rfl,
   (c7_exact_type_match .pyStr (Py.intLit 1) "Output" rfl).2 (by decide)⟩

/-- Witness for the amended C8 at a concrete predicate and tree. -/
theorem c8_find_first_satisfying_witness :
    isStr Py.noneV = false ∧
    find_in_pytree isStr (Py.list [Py.list [Py.intLit 1], Py.list [Py.str "z"]])
      = (dfsElems (Py.list [Py.list [Py.intLit 1], Py.list [Py.str "z"]])).find? isStr :=
  ⟨rfl, c8_find_first_satisfying isStr _ rfl⟩

/-- Witness for C9 at concrete component functions and concrete data. -/
theorem c9_multi_axis_commutativity_witness :
    recursive_xmap specInAB specOutAB = .ok fAB ∧
    recursive_xmap specInAB specOutBA = .ok fBA ∧
    elimination_order specOutAB = [.str "a", .str "b"] ∧
    elimination_order specOutBA = [.str "b", .str "a"] ∧
    XFun.sem (fUV (fun n => n + 1) (fun n => n * 2)) fAB
        [arr1 .i64 [1, 2], arr1 .i64 [3]]
      = some (.list [arr1 .i64 ([1, 2].map (fun n => n + 1)),
          arr1 .i64 ([3].map (fun n => n * 2))]) ∧
    XFun.sem (fVU (fun n => n + 1) (fun n => n * 2)) fBA
        [arr1 .i64 [1, 2], arr1 .i64 [3]]
      = some (.list [arr1 .i64 ([3].map (fun n => n * 2)),
          arr1 .i64 ([1, 2].map (fun n => n + 1))]) :=
  c9_multi_axis_commutativity (fun n => n + 1) (fun n => n * 2) .i64 [1, 2] [3]
    (by decide) (by decide)
